import Mathlib

/-!
# label_printer: checksum calculator and batch ingestion

A shallow embedding of `src/checksumCalculator.js` and of the handlers
`processInventoryData`, `clearLogs`, `deleteLog` and `getLogs` of
`src/dataProcessController.js`, followed by the properties proved about them.

JavaScript strings are embedded as Lean strings (sequences of Unicode scalar
values, so without lone surrogates).  The runtime services the code calls but
does not define (`String.prototype.localeCompare`, the SHA-256 implementation of
`crypto`, `Date` parsing, the clock, the PostgreSQL server) are parameters of
the embedding.
-/

namespace LabelPrinter

/-! ## JavaScript values -/

/-- A primitive JavaScript value, as found in a property of an inventory item.
`num` stands for an integer-valued number in the range where `String(n)` is its
decimal numeral. -/
inductive JsVal where
  | undefined
  | null
  | bool (b : Bool)
  | num (n : Int)
  | str (s : String)
  deriving DecidableEq, Repr

/-- An object literal: its own properties in order. -/
abbrev JsObject := List (String × JsVal)

/-- Property read `o.k`: `undefined` when the property is missing. -/
def JsObject.prop (o : JsObject) (k : String) : JsVal :=
  (o.lookup k).getD JsVal.undefined

/-- Truthiness of a value, as used by `||`, `!` and `? :`. -/
def JsVal.truthy : JsVal → Bool
  | .undefined => false
  | .null => false
  | .bool b => b
  | .num n => n != 0
  | .str s => s != ""

/-- The conversion `String(v)`. -/
def JsVal.toStr : JsVal → String
  | .undefined => "undefined"
  | .null => "null"
  | .bool true => "true"
  | .bool false => "false"
  | .num n => toString n
  | .str s => s

/-- The expression `v || d`. -/
def JsVal.orElse (v d : JsVal) : JsVal :=
  if v.truthy then v else d

/-- An element of an input array: `undefined`, `null`, or an object.  (A
primitive element behaves as an object without properties.) -/
inductive Elem where
  | undefined
  | null
  | obj (o : JsObject)
  deriving DecidableEq, Repr

/-- The argument `items` of `calculate` and `verify`: an array or any other
value. -/
inductive JsInput where
  | other (v : JsVal)
  | array (xs : List Elem)
  deriving DecidableEq, Repr

/-- What a `throw` carries. -/
inductive JsError where
  | error (message : String)
  | typeError
  deriving DecidableEq, Repr

/-! ## JSON.stringify on the normalized list -/

/-- The double quote character. -/
def dquote : Char := Char.ofNat 34

/-- The backslash character. -/
def bslash : Char := Char.ofNat 92

/-- A lower-case hexadecimal digit. -/
def hexDigit (n : Nat) : Char :=
  if n < 10 then Char.ofNat (48 + n) else Char.ofNat (87 + n)

/-- The escape `JSON.stringify` writes for one character of a string
(QuoteJSONString of ECMA-262). -/
def escapeChar (c : Char) : List Char :=
  if c = dquote then [bslash, dquote]
  else if c = bslash then [bslash, bslash]
  else if c.toNat = 8 then [bslash, 'b']
  else if c.toNat = 12 then [bslash, 'f']
  else if c.toNat = 10 then [bslash, 'n']
  else if c.toNat = 13 then [bslash, 'r']
  else if c.toNat = 9 then [bslash, 't']
  else if c.toNat < 32 then
    [bslash, 'u', '0', '0', hexDigit (c.toNat / 16), hexDigit (c.toNat % 16)]
  else [c]

/-- The characters of `JSON.stringify(s)` for a string `s`. -/
def quoteChars (s : List Char) : List Char :=
  dquote :: (s.flatMap escapeChar ++ [dquote])

/-- The result of `normalizeItem`: an object with the single property
`serialnumber`, a string. -/
structure Normalized where
  serialnumber : String
  deriving DecidableEq, Repr

/-- The characters of `JSON.stringify(n)` for a normalized item. -/
def recordChars (n : Normalized) : List Char :=
  '\x7b' :: (quoteChars "serialnumber".data ++ ':' :: (quoteChars n.serialnumber.data ++ ['\x7d']))

/-- The elements of an array, separated by commas. -/
def elementsChars : List Normalized → List Char
  | [] => []
  | n :: rest =>
    match rest with
    | [] => recordChars n
    | _ :: _ => recordChars n ++ ',' :: elementsChars rest

/-- The characters of `JSON.stringify(normalizedItems)` (no indentation). -/
def stringifyChars (l : List Normalized) : List Char :=
  '[' :: (elementsChars l ++ [']'])

/-- The string `JSON.stringify(normalizedItems)`. -/
def stringify (l : List Normalized) : String :=
  String.mk (stringifyChars l)

/-! ## ChecksumCalculator -/

/-- The runtime services used by `ChecksumCalculator`. -/
structure Runtime where
  /-- The call `a.localeCompare(b)`: negative, zero or positive. -/
  localeCompare : String → String → Int
  /-- The call `crypto.createHash('sha256').update(s, 'utf8').digest('hex')`. -/
  sha256Hex : String → String

/-- The method `ChecksumCalculator.normalizeItem`. -/
def normalizeItem (item : JsObject) : Normalized :=
  { serialnumber := ((item.prop "serialnumber").orElse (JsVal.str "")).toStr }

/-- The comparator handed to `sort`,
`String(a.serialnumber).localeCompare(String(b.serialnumber))`, read as "a may
stay before b": the result is not positive. -/
def sortBefore (rt : Runtime) (a b : JsObject) : Prop :=
  rt.localeCompare (a.prop "serialnumber").toStr (b.prop "serialnumber").toStr ≤ 0

instance (rt : Runtime) : DecidableRel (sortBefore rt) :=
  fun _ _ => inferInstanceAs (Decidable (_ ≤ (0 : Int)))

/-- The comparator on the `serialnumber` values themselves. -/
def serialBefore (rt : Runtime) (v w : JsVal) : Prop :=
  rt.localeCompare v.toStr w.toStr ≤ 0

instance (rt : Runtime) : DecidableRel (serialBefore rt) :=
  fun _ _ => inferInstanceAs (Decidable (_ ≤ (0 : Int)))

/-- The objects of an array whose elements are all objects; `none` as soon as
one element is `null` or `undefined`. -/
def objects : List Elem → Option (List JsObject)
  | [] => some []
  | Elem.obj o :: rest => (objects rest).map (fun os => o :: os)
  | _ :: _ => none

/-- The copy `[...items].sort(...)`: a stable sort by the comparator. -/
def sortedItems (rt : Runtime) (items : List JsObject) : List JsObject :=
  items.insertionSort (sortBefore rt)

/-- The array `normalizedItems` of `calculate`. -/
def normalizedItems (rt : Runtime) (items : List JsObject) : List Normalized :=
  (sortedItems rt items).map normalizeItem

/-- The string `jsonString` that `calculate` hashes. -/
def jsonString (rt : Runtime) (items : List JsObject) : String :=
  stringify (normalizedItems rt items)

/-- The method `ChecksumCalculator.calculate`.  The `catch` block logs and
rethrows, so an exception of the `try` block is the result.  When an element is
`null` or `undefined`, reading its `serialnumber` (in the comparator, or in
`normalizeItem` for an element the sort did not compare) throws a TypeError. -/
def calculate (rt : Runtime) (items : JsInput) : Except JsError String :=
  match items with
  | .other _ => throw (JsError.error "Input must be an array")
  | .array xs =>
    match objects xs with
    | none => throw JsError.typeError
    | some os => pure (rt.sha256Hex (jsonString rt os))

/-- Strict equality `digest === provided` of a string with any value. -/
def strictEqStr (digest : String) (provided : JsVal) : Bool :=
  match provided with
  | .str s => digest == s
  | _ => false

/-- The method `ChecksumCalculator.verify`: the `try` block computes and
compares, the `catch` block returns `false`. -/
def verify (rt : Runtime) (items : JsInput) (providedChecksum : JsVal) : Except JsError Bool :=
  tryCatch
    (do
      let calculatedChecksum ← calculate rt items
      let isValid := strictEqStr calculatedChecksum providedChecksum
      pure isValid)
    (fun _ => pure false)

/-- Comparison of two strings by code point: negative, zero or positive. -/
def codepointCompareChars : List Char → List Char → Int
  | [], [] => 0
  | [], _ :: _ => -1
  | _ :: _, [] => 1
  | a :: as, b :: bs =>
    if a.toNat < b.toNat then -1
    else if b.toNat < a.toNat then 1
    else codepointCompareChars as bs

/-- Comparison of two strings by code point. -/
def codepointCompare (a b : String) : Int :=
  codepointCompareChars a.data b.data

/-- A runtime for evaluating examples: code point comparison, and the identity
in place of the hash. -/
def sampleRuntime : Runtime where
  localeCompare := codepointCompare
  sha256Hex := fun s => s

/-- Property write `o.k = v`: replaces the value in place, or adds the
property at the end. -/
def JsObject.put : JsObject → String → JsVal → JsObject
  | [], k, v => [(k, v)]
  | (k', v') :: rest, k, v =>
    if k' = k then (k, v) :: rest else (k', v') :: JsObject.put rest k v

/-- The array `items` with the `serialnumber` of its element `i` replaced by
`v`. -/
def replaceSerial : List JsObject → Nat → JsVal → List JsObject
  | [], _, _ => []
  | o :: rest, 0, v => o.put "serialnumber" v :: rest
  | o :: rest, i + 1, v => o :: replaceSerial rest i v

/-! ### The reference definition of the specification -/

/-- The expression `v ?? d`. -/
def JsVal.nullish (v d : JsVal) : JsVal :=
  match v with
  | .undefined => d
  | .null => d
  | _ => v

/-- The projection the specification words:
`{serialnumber: string(item.serialnumber ?? "")}`. -/
def specNormalize (item : JsObject) : Normalized :=
  { serialnumber := ((item.prop "serialnumber").nullish (JsVal.str "")).toStr }

/-- The order the specification words: by `serialnumber` coerced to string, in
code point order. -/
def specSortBefore (a b : JsObject) : Prop :=
  codepointCompare (a.prop "serialnumber").toStr (b.prop "serialnumber").toStr ≤ 0

instance : DecidableRel specSortBefore :=
  fun _ _ => inferInstanceAs (Decidable (_ ≤ (0 : Int)))

/-- The canonical serialization the specification words: sort a copy, project,
serialize compactly. -/
def specJsonString (items : List JsObject) : String :=
  stringify ((items.insertionSort specSortBefore).map specNormalize)

/-! ### Reading the serialization back -/

/-- The value of a lower-case hexadecimal digit. -/
def unhex (c : Char) : Nat :=
  if c.toNat < 58 then c.toNat - 48 else c.toNat - 87

/-- Reads one escaped character back: the inverse of `escapeChar`, used to show
that the serialization determines the list. -/
def unescape : List Char → Option (Char × List Char)
  | [] => none
  | x :: rest =>
    if x = bslash then
      match rest with
      | [] => none
      | y :: rest' =>
        if y = 'u' then
          match rest' with
          | _ :: _ :: h :: l :: r => some (Char.ofNat (16 * unhex h + unhex l), r)
          | _ => none
        else if y = 'b' then some (Char.ofNat 8, rest')
        else if y = 'f' then some (Char.ofNat 12, rest')
        else if y = 'n' then some (Char.ofNat 10, rest')
        else if y = 'r' then some (Char.ofNat 13, rest')
        else if y = 't' then some (Char.ofNat 9, rest')
        else some (y, rest')
    else some (x, rest)

/-! ## The store behind `processInventoryData` -/

/-- A row of `system_records`.  `columns` holds the text and boolean columns
the INSERT fills from the item (the numeric columns, parsed with `parseFloat`
and `parseInt`, are left out); the timestamps are milliseconds since the
epoch. -/
structure SystemRecord where
  serialnumber : String
  is_current : Bool
  columns : List (String × JsVal)
  created_at : Nat
  started_at : Nat
  last_updated_at : Nat
  deriving DecidableEq, Repr

/-- An entry of the `errors` array of a batch. -/
structure ItemError where
  serialnumber : JsVal
  error : String
  deriving DecidableEq, Repr

/-- A row of `processing_logs`. -/
structure ProcessingLog where
  id : Nat
  batch_id : JsVal
  source : JsVal
  status : String
  total_items : Nat
  processed_count : Nat
  error_count : Nat
  errors : Option (List ItemError)
  error_message : Option String
  started_at : Nat
  completed_at : Option Nat
  deriving DecidableEq, Repr

/-- The contents of the two tables. -/
structure Tables where
  system_records : List SystemRecord
  processing_logs : List ProcessingLog
  deriving DecidableEq, Repr

/-- The database as the single client sees it: the tables, the tables as they
were at BEGIN while a transaction is open, and the last value of the sequence
behind `processing_logs.id` (a sequence is not rolled back). -/
structure Db where
  tables : Tables
  snapshot : Option Tables
  log_id_seq : Nat
  deriving DecidableEq, Repr

/-- The statements `processInventoryData` sends, with their parameters. -/
inductive Query where
  | begin
  | commit
  | rollback
  | insertLog (batch_id source : JsVal) (status : String)
      (total_items processed_count error_count : Nat)
  | supersede (serialnumber : String)
  | insertRecord (row : SystemRecord)
  | finalizeLog (status : String) (processed_count error_count : Nat)
      (errors : List ItemError) (id : Nat)
  | markFailed (error_message : String) (id : Nat)
  deriving DecidableEq, Repr

/-- The `UPDATE system_records SET is_current = false WHERE serialnumber = $1
AND is_current = true`. -/
def supersedeRows (serialnumber : String) (rows : List SystemRecord) : List SystemRecord :=
  rows.map (fun r =>
    if r.serialnumber = serialnumber ∧ r.is_current = true then { r with is_current := false }
    else r)

/-- The `UPDATE processing_logs SET status, processed_count, error_count,
completed_at = NOW(), errors WHERE id = $5`. -/
def finalizeRows (now : Nat) (status : String) (processed_count error_count : Nat)
    (errors : List ItemError) (id : Nat) (rows : List ProcessingLog) : List ProcessingLog :=
  rows.map (fun r =>
    if r.id = id then
      { r with status := status, processed_count := processed_count,
               error_count := error_count, completed_at := some now, errors := some errors }
    else r)

/-- The `UPDATE processing_logs SET status = 'failed', error_message,
completed_at = NOW() WHERE id = $2`. -/
def markFailedRows (now : Nat) (error_message : String) (id : Nat)
    (rows : List ProcessingLog) : List ProcessingLog :=
  rows.map (fun r =>
    if r.id = id then
      { r with status := "failed", error_message := some error_message,
               completed_at := some now }
    else r)

/-- The effect of a statement that succeeds, at server time `now`, and the `id`
it returns (for `INSERT ... RETURNING id`). -/
def exec (now : Nat) (db : Db) : Query → Db × Option Nat
  | .begin =>
    ({ db with snapshot := some (db.snapshot.getD db.tables) }, none)
  | .commit => ({ db with snapshot := none }, none)
  | .rollback =>
    ({ db with tables := db.snapshot.getD db.tables, snapshot := none }, none)
  | .insertLog batch_id source status total_items processed_count error_count =>
    ({ db with
        log_id_seq := db.log_id_seq + 1
        tables := { db.tables with
          processing_logs := db.tables.processing_logs ++
            [{ id := db.log_id_seq + 1, batch_id := batch_id, source := source,
               status := status, total_items := total_items,
               processed_count := processed_count, error_count := error_count,
               errors := none, error_message := none, started_at := now,
               completed_at := none }] } },
      some (db.log_id_seq + 1))
  | .supersede serialnumber =>
    ({ db with tables := { db.tables with
        system_records := supersedeRows serialnumber db.tables.system_records } }, none)
  | .insertRecord row =>
    ({ db with tables := { db.tables with
        system_records := db.tables.system_records ++ [row] } }, none)
  | .finalizeLog status processed_count error_count errors id =>
    ({ db with tables := { db.tables with
        processing_logs :=
          finalizeRows now status processed_count error_count errors id
            db.tables.processing_logs } }, none)
  | .markFailed error_message id =>
    ({ db with tables := { db.tables with
        processing_logs := markFailedRows now error_message id db.tables.processing_logs } },
      none)

/-- What `processInventoryData` takes from outside: which statements fail (by
their position among the statements sent on the client, with the error
message), how `new Date(v)` reads a value (`none` for an invalid date), the
clock read by item `i`, and the server time of each statement. -/
structure Env where
  fails : Nat → Option String
  parseDate : JsVal → Option Nat
  clock : Nat → Nat
  dbNow : Nat → Nat

/-- A pooled client: the database, the statements sent so far with whether
each succeeded, and how often `release` was called. -/
structure Client where
  db : Db
  issued : List (Query × Bool)
  released : Nat
  deriving DecidableEq, Repr

/-- The call `pool.connect()`. -/
def connect (db : Db) : Client :=
  { db := db, issued := [], released := 0 }

/-- The call `await client.query(...)`: a failing statement changes nothing and
throws; a succeeding one takes effect.  Which statements fail is left to `env`:
PostgreSQL, after a failure inside a transaction, fails every later statement of
that transaction up to its ROLLBACK, so the runs of the server are those in
which `env` does so too, and a run in which a statement fails and a later one of
the same transaction succeeds is a run of this model only. -/
def Client.query (env : Env) (c : Client) (q : Query) : Client × Except String (Option Nat) :=
  match env.fails c.issued.length with
  | some message => ({ c with issued := c.issued ++ [(q, false)] }, Except.error message)
  | none =>
    ({ c with db := (exec (env.dbNow c.issued.length) c.db q).1,
              issued := c.issued ++ [(q, true)] },
      Except.ok (exec (env.dbNow c.issued.length) c.db q).2)

/-- The call `client.release()`. -/
def Client.release (c : Client) : Client :=
  { c with released := c.released + 1 }

/-! ## processInventoryData -/

/-- The `items` of a request body: an array of objects, or any other value.
An array with a `null` or `undefined` element is not of this type: it is handled
by `processInventoryRequest` below, which is `processInventoryData` on every
other body. -/
inductive ItemsArg where
  | other (v : JsVal)
  | array (items : List JsObject)
  deriving DecidableEq, Repr

/-- The request body `{ batch_id, items, source }`. -/
structure Request where
  batch_id : JsVal
  items : ItemsArg
  source : JsVal
  deriving DecidableEq, Repr

/-- The object `details` of a success response. -/
structure Details where
  batch_id : JsVal
  total_items : Nat
  processed_count : Nat
  error_count : Nat
  status : String
  errors : Option (List ItemError)
  deriving DecidableEq, Repr

/-- What is sent to the caller: `res.json({success: true, ...})` or
`res.status(500).json({success: false, error, details})`. -/
inductive Response where
  | success (message : String) (batchId : JsVal) (details : Details)
  | failure (statusCode : Nat) (error : String) (details : String)
  deriving DecidableEq, Repr

/-- The field `success` of a response. -/
def Response.isSuccess : Response → Bool
  | .success _ _ _ => true
  | .failure _ _ _ => false

/-- The helper `ensureTimestamp`, read at clock value `now`: the current time
for a missing or unparsable timestamp.  (`processInventoryData` does not call
it.) -/
def ensureTimestamp (env : Env) (now : Nat) (timestamp : JsVal) : Nat :=
  if timestamp.truthy then
    match env.parseDate timestamp with
    | some t => t
    | none => now
  else now

/-- The expression `v ? new Date(v).toISOString() : now`: `toISOString` throws
a RangeError on an invalid date. -/
def timestampOr (env : Env) (now : Nat) (v : JsVal) : Except String Nat :=
  if v.truthy then
    match env.parseDate v with
    | some t => pure t
    | none => throw "Invalid time value"
  else pure now

/-- The three timestamps of item `i`, prepared between its UPDATE and its
INSERT. -/
def itemTimestamps (env : Env) (i : Nat) (item : JsObject) : Except String (Nat × Nat × Nat) := do
  let now := env.clock i
  let created_at ← timestampOr env now (item.prop "created_at")
  let started_at ← timestampOr env now (item.prop "started_at")
  let last_updated_at ← timestampOr env now (item.prop "last_updated_at")
  pure (created_at, started_at, last_updated_at)

/-- The row the INSERT of an item writes.  The parameter `item.serialnumber`
reaches the text column as `String(item.serialnumber)`, as it does in the WHERE
clause of the UPDATE. -/
def newRecord (source : JsVal) (item : JsObject) (ts : Nat × Nat × Nat) : SystemRecord :=
  { serialnumber := (item.prop "serialnumber").toStr
    is_current := true
    columns :=
      [("computername", (item.prop "computername").orElse (JsVal.str "")),
       ("manufacturer", (item.prop "manufacturer").orElse (JsVal.str "")),
       ("model", (item.prop "model").orElse (JsVal.str "")),
       ("systemsku", (item.prop "systemsku").orElse (JsVal.str "")),
       ("operatingsystem", (item.prop "operatingsystem").orElse (JsVal.str "")),
       ("cpu", (item.prop "cpu").orElse (JsVal.str "")),
       ("resolution", (item.prop "resolution").orElse (JsVal.str "")),
       ("graphicscard", (item.prop "graphicscard").orElse (JsVal.str "")),
       ("touchscreen", (item.prop "touchscreen").orElse (JsVal.bool false)),
       ("disks", (item.prop "disks").orElse (JsVal.str "")),
       ("outbound_status", (item.prop "outbound_status").orElse (JsVal.str "pending")),
       ("sync_status", (item.prop "sync_status").orElse (JsVal.str "pending")),
       ("data_source", (item.prop "data_source").orElse source),
       ("validation_status", (item.prop "validation_status").orElse (JsVal.str "pending")),
       ("validation_message", (item.prop "validation_message").orElse (JsVal.str "")),
       ("sync_version", (item.prop "sync_version").orElse (JsVal.str "1.0"))]
    created_at := ts.1
    started_at := ts.2.1
    last_updated_at := ts.2.2 }

/-- The variables `errors`, `processedCount` and `errorCount`. -/
structure ItemsState where
  errors : List ItemError
  processedCount : Nat
  errorCount : Nat
  deriving DecidableEq, Repr

/-- The `catch (itemError)` block of an item. -/
def ItemsState.fail (st : ItemsState) (item : JsObject) (message : String) : ItemsState :=
  { st with errorCount := st.errorCount + 1
            errors := st.errors ++ [{ serialnumber := item.prop "serialnumber", error := message }] }

/-- The statement `processedCount++`. -/
def ItemsState.done (st : ItemsState) : ItemsState :=
  { st with processedCount := st.processedCount + 1 }

/-- An item waiting for the result of a statement it has sent. -/
structure Pending where
  index : Nat
  item : JsObject
  result : Except String (Option Nat)

/-- The synchronous start of every item callback under `Promise.all`: an item
without a truthy `serialnumber` fails at once; every other item sends its
UPDATE and waits.  The client runs the statements in the order they are sent,
so all these UPDATEs precede every INSERT. -/
def startItems (env : Env) : Client → ItemsState → Nat → List JsObject →
    Client × ItemsState × List Pending
  | c, st, _, [] => (c, st, [])
  | c, st, i, item :: rest =>
    if (item.prop "serialnumber").truthy then
      let r := c.query env (Query.supersede (item.prop "serialnumber").toStr)
      let out := startItems env r.1 st (i + 1) rest
      (out.1, out.2.1, { index := i, item := item, result := r.2 } :: out.2.2)
    else
      startItems env c (st.fail item "Missing serial number") (i + 1) rest

/-- The continuation of each item after its UPDATE, in the order the UPDATEs
return: a failed UPDATE or an invalid timestamp fails the item; otherwise the
item sends its INSERT and waits. -/
def continueItems (env : Env) (source : JsVal) : Client → ItemsState → List Pending →
    Client × ItemsState × List Pending
  | c, st, [] => (c, st, [])
  | c, st, p :: rest =>
    match p.result with
    | Except.error message => continueItems env source c (st.fail p.item message) rest
    | Except.ok _ =>
      match itemTimestamps env p.index p.item with
      | Except.error message => continueItems env source c (st.fail p.item message) rest
      | Except.ok ts =>
        let r := c.query env (Query.insertRecord (newRecord source p.item ts))
        let out := continueItems env source r.1 st rest
        (out.1, out.2.1, { index := p.index, item := p.item, result := r.2 } :: out.2.2)

/-- The continuation of each item after its INSERT, in the order the INSERTs
return. -/
def finishItems : ItemsState → List Pending → ItemsState
  | st, [] => st
  | st, p :: rest =>
    match p.result with
    | Except.error message => finishItems (st.fail p.item message) rest
    | Except.ok _ => finishItems st.done rest

/-- The step `await Promise.all(items.map(async (item) => ...))`. -/
def processItems (env : Env) (source : JsVal) (c : Client) (items : List JsObject) :
    Client × ItemsState :=
  let started := startItems env c { errors := [], processedCount := 0, errorCount := 0 } 0 items
  let continued := continueItems env source started.1 started.2.1 started.2.2
  (continued.1, finishItems continued.2.1 continued.2.2)

/-- The result of a call: the client after `release` and the response. -/
structure Outcome where
  client : Client
  response : Response
  deriving DecidableEq, Repr

/-- The attempt, in a new transaction, to mark the log row as failed; any
failure is logged and followed by a ROLLBACK whose own failure is logged. -/
def markLogFailed (env : Env) (c : Client) (message : String) (processingLogId : Nat) : Client :=
  let b := c.query env Query.begin
  match b.2 with
  | Except.error _ => (b.1.query env Query.rollback).1
  | Except.ok _ =>
    let u := b.1.query env (Query.markFailed message processingLogId)
    match u.2 with
    | Except.error _ => (u.1.query env Query.rollback).1
    | Except.ok _ =>
      let k := u.1.query env Query.commit
      match k.2 with
      | Except.error _ => (k.1.query env Query.rollback).1
      | Except.ok _ => k.1

/-- The `catch (error)` block of `processInventoryData` followed by its
`finally` block. -/
def failWith (env : Env) (c : Client) (processingLogId : Option Nat)
    (currentTransaction : Bool) (message : String) : Outcome :=
  let c1 := if currentTransaction then (c.query env Query.rollback).1 else c
  let c2 :=
    match processingLogId with
    | some id => if id ≠ 0 then markLogFailed env c1 message id else c1
    | none => c1
  { client := c2.release
    response := Response.failure 500 "Failed to process inventory data" message }

/-- The default `source = 'api'` of the destructuring. -/
def Request.sourceOrDefault (req : Request) : JsVal :=
  if req.source = JsVal.undefined then JsVal.str "api" else req.source

/-- The handler `processInventoryData`, run against the database `db`. -/
def processInventoryData (env : Env) (db : Db) (req : Request) : Outcome :=
  let client := connect db
  match req.items with
  | ItemsArg.other _ => failWith env client none false "No items to process"
  | ItemsArg.array [] => failWith env client none false "No items to process"
  | ItemsArg.array (first :: more) =>
    let items := first :: more
    let source := req.sourceOrDefault
    let b := client.query env Query.begin
    match b.2 with
    | Except.error message => failWith env b.1 none false message
    | Except.ok _ =>
      let l := b.1.query env (Query.insertLog req.batch_id source "processing" items.length 0 0)
      match l.2 with
      | Except.error message => failWith env l.1 none true message
      | Except.ok none =>
        failWith env l.1 none true "Cannot read properties of undefined (reading 'id')"
      | Except.ok (some processingLogId) =>
        let p := processItems env source l.1 items
        let status := if p.2.errorCount = 0 then "completed" else "completed_with_errors"
        let u := p.1.query env
          (Query.finalizeLog status p.2.processedCount p.2.errorCount p.2.errors processingLogId)
        match u.2 with
        | Except.error message => failWith env u.1 (some processingLogId) true message
        | Except.ok _ =>
          let k := u.1.query env Query.commit
          match k.2 with
          | Except.error message => failWith env k.1 (some processingLogId) true message
          | Except.ok _ =>
            { client := k.1.release
              response := Response.success "Data processing completed" req.batch_id
                { batch_id := req.batch_id
                  total_items := items.length
                  processed_count := p.2.processedCount
                  error_count := p.2.errorCount
                  status := status
                  errors := if p.2.errors.length > 0 then some p.2.errors else none } }

/-- The invariant of `system_records`: at most one current row for each
serial number. -/
def AtMostOneCurrent (rows : List SystemRecord) : Prop :=
  ∀ s : String, (rows.filter (fun r => r.serialnumber = s ∧ r.is_current = true)).length ≤ 1

/-- The first ROLLBACK sent on the client, with whether it succeeded: in
`processInventoryData` this is the ROLLBACK of the `catch` block. -/
def firstRollback (issued : List (Query × Bool)) : Option (Query × Bool) :=
  issued.find? (fun e => e.1 = Query.rollback)

/-- An environment for evaluating examples: no statement fails, a number is a
date (its value in milliseconds) and nothing else is, and all clocks read
1000. -/
def sampleEnv : Env where
  fails := fun _ => none
  parseDate := fun v =>
    match v with
    | JsVal.num n => some n.toNat
    | _ => none
  clock := fun _ => 1000
  dbNow := fun _ => 1000

/-- A database with empty tables and no open transaction. -/
def emptyDb : Db :=
  { tables := { system_records := [], processing_logs := [] }, snapshot := none, log_id_seq := 0 }

/-- The batch `[{serialnumber: "S1"}, {}, {serialnumber: "S3"}]`. -/
def sampleBatch : List JsObject :=
  [[("serialnumber", JsVal.str "S1")], [], [("serialnumber", JsVal.str "S3")]]

/-- A request carrying `sampleBatch`. -/
def sampleRequest : Request :=
  { batch_id := JsVal.str "b1", items := ItemsArg.array sampleBatch, source := JsVal.undefined }

/-- The sample environment, except that statement number `n` on the client
fails. -/
def failingAt (n : Nat) : Env :=
  { sampleEnv with fails := fun k => if k = n then some "connection lost" else none }

/-- A database holding a current row for "S1" and the log row of an earlier
batch. -/
def stockedDb : Db :=
  { tables :=
      { system_records :=
          [{ serialnumber := "S1", is_current := true, columns := [],
             created_at := 1, started_at := 1, last_updated_at := 1 }]
        processing_logs :=
          [{ id := 1, batch_id := JsVal.str "b0", source := JsVal.str "api",
             status := "completed", total_items := 1, processed_count := 1, error_count := 0,
             errors := some [], error_message := none, started_at := 1,
             completed_at := some 2 }] }
    snapshot := none
    log_id_seq := 1 }

/-- A request with the single item `{serialnumber: "S1"}`. -/
def singleRequest : Request :=
  { batch_id := JsVal.str "b1"
    items := ItemsArg.array [[("serialnumber", JsVal.str "S1")]]
    source := JsVal.undefined }

/-- A request with the single item `{serialnumber: "S1", model: "X"}`: the
batch A of the re-ingestion scenario. -/
def firstIngest : Request :=
  { batch_id := JsVal.str "A"
    items := ItemsArg.array [[("serialnumber", JsVal.str "S1"), ("model", JsVal.str "X")]]
    source := JsVal.undefined }

/-- A request with the single item `{serialnumber: "S1", model: "Y"}`: the
batch B of the re-ingestion scenario. -/
def secondIngest : Request :=
  { batch_id := JsVal.str "B"
    items := ItemsArg.array [[("serialnumber", JsVal.str "S1"), ("model", JsVal.str "Y")]]
    source := JsVal.undefined }

/-- A request with the single item `{serialnumber: "S1", created_at:
"not-a-date"}`. -/
def badDateRequest : Request :=
  { batch_id := JsVal.str "b2"
    items := ItemsArg.array
      [[("serialnumber", JsVal.str "S1"), ("created_at", JsVal.str "not-a-date")]]
    source := JsVal.undefined }

/-! ## The log store behind `clearLogs`, `deleteLog` and `getLogs` -/

/-- A row of `processing_logs_archive`: the columns copied from the log row,
its former `id` as `original_id`, and `archived_at`. -/
structure ArchivedLog where
  original_id : Nat
  batch_id : JsVal
  source : JsVal
  status : String
  total_items : Nat
  processed_count : Nat
  error_count : Nat
  errors : Option (List ItemError)
  error_message : Option String
  started_at : Nat
  completed_at : Option Nat
  archived_at : Nat
  deriving DecidableEq, Repr

/-- The contents of the live log table and of the archive. -/
structure LogTables where
  processing_logs : List ProcessingLog
  processing_logs_archive : List ArchivedLog
  deriving DecidableEq, Repr

/-- The database as the single client of `clearLogs` or `deleteLog` sees it:
the tables, the tables as they were at BEGIN while a transaction is open, and
the start time of that transaction, which is what `NOW()` returns inside it. -/
structure LogDb where
  tables : LogTables
  snapshot : Option LogTables
  txTime : Nat
  deriving DecidableEq, Repr

/-- The interval `INTERVAL '30 days'` in milliseconds. -/
def retentionMs : Nat := 30 * 24 * 60 * 60 * 1000

/-- The condition `completed_at < NOW() - INTERVAL '30 days'`; it is not true
of a row whose `completed_at` is NULL. -/
def aged (now : Nat) (r : ProcessingLog) : Bool :=
  match r.completed_at with
  | some t => decide ((t : Int) < (now : Int) - (retentionMs : Int))
  | none => false

/-- The row the `INSERT INTO processing_logs_archive ... SELECT` writes for a
log row. -/
def archiveRow (now : Nat) (r : ProcessingLog) : ArchivedLog :=
  { original_id := r.id, batch_id := r.batch_id, source := r.source, status := r.status,
    total_items := r.total_items, processed_count := r.processed_count,
    error_count := r.error_count, errors := r.errors, error_message := r.error_message,
    started_at := r.started_at, completed_at := r.completed_at, archived_at := now }

/-- The statements `clearLogs` and `deleteLog` send. -/
inductive LogQuery where
  | begin
  | commit
  | rollback
  | countAged
  | archiveAged
  | deleteAged
  | selectByBatch (batchId : String)
  | deleteByBatch (batchId : String)
  deriving DecidableEq, Repr

/-- The value of `NOW()` for a statement sent at server time `stmtTime`: the
start of the open transaction, or the time of the statement itself. -/
def LogDb.now (db : LogDb) (stmtTime : Nat) : Nat :=
  if db.snapshot.isSome then db.txTime else stmtTime

/-- The effect of a statement that succeeds, and the number it yields: the
count for the two counting statements, the number of rows otherwise. -/
def execLog (stmtTime : Nat) (db : LogDb) : LogQuery → LogDb × Nat
  | .begin =>
    ({ db with snapshot := some (db.snapshot.getD db.tables), txTime := db.now stmtTime }, 0)
  | .commit => ({ db with snapshot := none }, 0)
  | .rollback => ({ db with tables := db.snapshot.getD db.tables, snapshot := none }, 0)
  | .countAged =>
    (db, (db.tables.processing_logs.filter (aged (db.now stmtTime))).length)
  | .archiveAged =>
    ({ db with tables := { db.tables with
        processing_logs_archive := db.tables.processing_logs_archive ++
          (db.tables.processing_logs.filter (aged (db.now stmtTime))).map
            (archiveRow (db.now stmtTime)) } },
      (db.tables.processing_logs.filter (aged (db.now stmtTime))).length)
  | .deleteAged =>
    ({ db with tables := { db.tables with
        processing_logs :=
          db.tables.processing_logs.filter (fun r => !aged (db.now stmtTime) r) } },
      (db.tables.processing_logs.filter (aged (db.now stmtTime))).length)
  | .selectByBatch batchId =>
    (db, (db.tables.processing_logs.filter (fun r => r.batch_id.toStr = batchId)).length)
  | .deleteByBatch batchId =>
    ({ db with tables := { db.tables with
        processing_logs :=
          db.tables.processing_logs.filter (fun r => ¬ r.batch_id.toStr = batchId) } },
      (db.tables.processing_logs.filter (fun r => r.batch_id.toStr = batchId)).length)

/-- A pooled client of the log store: the database, the statements sent so far
with whether each succeeded, and how often `release` was called. -/
structure LogClient where
  db : LogDb
  issued : List (LogQuery × Bool)
  released : Nat
  deriving DecidableEq, Repr

/-- The call `pool.connect()`. -/
def connectLog (db : LogDb) : LogClient :=
  { db := db, issued := [], released := 0 }

/-- The call `await client.query(...)` on the log store. -/
def LogClient.query (env : Env) (c : LogClient) (q : LogQuery) : LogClient × Except String Nat :=
  match env.fails c.issued.length with
  | some message => ({ c with issued := c.issued ++ [(q, false)] }, Except.error message)
  | none =>
    ({ c with db := (execLog (env.dbNow c.issued.length) c.db q).1,
              issued := c.issued ++ [(q, true)] },
      Except.ok (execLog (env.dbNow c.issued.length) c.db q).2)

/-- The call `client.release()`. -/
def LogClient.release (c : LogClient) : LogClient :=
  { c with released := c.released + 1 }

/-! ## clearLogs -/

/-- What `clearLogs` sends to the caller. -/
inductive ClearResponse where
  | success (cleared : Nat) (message : String)
  | failure (statusCode : Nat) (error : String) (details : String)
  deriving DecidableEq, Repr

/-- The result of `clearLogs`: the client after `release` and the response. -/
structure ClearOutcome where
  client : LogClient
  response : ClearResponse
  deriving DecidableEq, Repr

/-- The `catch` block of `clearLogs` followed by its `finally` block: a
ROLLBACK when the transaction is active, a second one in `finally` when the
first failed, then `release`. -/
def clearFail (env : Env) (c : LogClient) (transactionActive : Bool) (message : String) :
    ClearOutcome :=
  if transactionActive then
    let r := c.query env LogQuery.rollback
    match r.2 with
    | Except.ok _ =>
      { client := r.1.release
        response := ClearResponse.failure 500 "Failed to clear logs" message }
    | Except.error _ =>
      { client := (r.1.query env LogQuery.rollback).1.release
        response := ClearResponse.failure 500 "Failed to clear logs" message }
  else
    { client := c.release
      response := ClearResponse.failure 500 "Failed to clear logs" message }

/-- The handler `clearLogs`, run against the database `db`. -/
def clearLogs (env : Env) (db : LogDb) : ClearOutcome :=
  let client := connectLog db
  let b := client.query env LogQuery.begin
  match b.2 with
  | Except.error message => clearFail env b.1 false message
  | Except.ok _ =>
    let check := b.1.query env LogQuery.countAged
    match check.2 with
    | Except.error message => clearFail env check.1 true message
    | Except.ok count =>
      if count = 0 then
        let k := check.1.query env LogQuery.commit
        match k.2 with
        | Except.error message => clearFail env k.1 true message
        | Except.ok _ =>
          { client := k.1.release
            response := ClearResponse.success 0 "No logs to archive" }
      else
        let a := check.1.query env LogQuery.archiveAged
        match a.2 with
        | Except.error message => clearFail env a.1 true message
        | Except.ok moved =>
          let d := a.1.query env LogQuery.deleteAged
          match d.2 with
          | Except.error message => clearFail env d.1 true message
          | Except.ok _ =>
            let k := d.1.query env LogQuery.commit
            match k.2 with
            | Except.error message => clearFail env k.1 true message
            | Except.ok _ =>
              { client := k.1.release
                response := ClearResponse.success moved
                  (toString moved ++ " logs archived successfully") }

/-! ## deleteLog -/

/-- What `deleteLog` sends to the caller; `unhandled` stands for an exception
that leaves the handler (the ROLLBACK of the `catch` block is not guarded). -/
inductive DeleteResponse where
  | success (message : String)
  | notFound (statusCode : Nat) (error : String)
  | failure (statusCode : Nat) (error : String)
  | unhandled (message : String)
  deriving DecidableEq, Repr

/-- The result of `deleteLog`: the client after `release` and the response. -/
structure DeleteOutcome where
  client : LogClient
  response : DeleteResponse
  deriving DecidableEq, Repr

/-- The `catch` block of `deleteLog` followed by its `finally` block. -/
def deleteFail (env : Env) (c : LogClient) : DeleteOutcome :=
  let r := c.query env LogQuery.rollback
  match r.2 with
  | Except.ok _ =>
    { client := r.1.release
      response := DeleteResponse.failure 500 "Failed to delete log record" }
  | Except.error message =>
    { client := r.1.release, response := DeleteResponse.unhandled message }

/-- The handler `deleteLog` for the request parameter `batchId`. -/
def deleteLog (env : Env) (db : LogDb) (batchId : String) : DeleteOutcome :=
  let client := connectLog db
  let b := client.query env LogQuery.begin
  match b.2 with
  | Except.error _ => deleteFail env b.1
  | Except.ok _ =>
    let check := b.1.query env (LogQuery.selectByBatch batchId)
    match check.2 with
    | Except.error _ => deleteFail env check.1
    | Except.ok rows =>
      if rows = 0 then
        { client := check.1.release
          response := DeleteResponse.notFound 404 "Log record not found" }
      else
        let d := check.1.query env (LogQuery.deleteByBatch batchId)
        match d.2 with
        | Except.error _ => deleteFail env d.1
        | Except.ok _ =>
          let k := d.1.query env LogQuery.commit
          match k.2 with
          | Except.error _ => deleteFail env k.1
          | Except.ok _ =>
            { client := k.1.release
              response := DeleteResponse.success "Log record deleted successfully" }

/-- A transaction opened on the client has not been ended: after the last
successful BEGIN no COMMIT or ROLLBACK has succeeded. -/
def LogClient.transactionOpen (c : LogClient) : Bool :=
  c.db.snapshot.isSome

/-! ## getLogs -/

/-- The query parameters of `getLogs`: `page` and `limit` with the natural
number their digits denote when present, and `status`. -/
structure LogsParams where
  page : Option Nat
  limit : Option Nat
  status : Option String
  deriving DecidableEq, Repr

/-- What `getLogs` sends to the caller.  `page` and `totalPages` are `none`
when the number is not one the JSON can carry (infinite or not a number). -/
inductive LogsResponse where
  | success (logs : List ProcessingLog) (total : Nat) (page : Option Nat)
      (totalPages : Option Nat)
  | failure (statusCode : Nat) (error : String) (details : String)
  deriving DecidableEq, Repr

/-- The time zone conversions around the query of `getLogs`: `newYork t` is the
value of `t AT TIME ZONE 'UTC' AT TIME ZONE 'America/New_York'`, the wall-clock
time shown in New York; `reread w` is the instant `new Date(w).toISOString()`
prints for the value the driver hands over for `w`. -/
structure TimeZones where
  newYork : Nat → Nat
  reread : Nat → Nat

/-- How often `n` is halved before it is below `2 ^ 53`, at most `fuel`
times. -/
def doubleShift : Nat → Nat → Nat
  | 0, _ => 0
  | fuel + 1, n => if n < 2 ^ 53 then 0 else doubleShift fuel (n / 2) + 1

/-- The double nearest to a natural number (ties to even), as the natural
number it equals; `none` for `Infinity`.  Numbers below `2 ^ 53` are themselves
doubles.  A larger number is rounded to 53 significant bits `m` with exponent
`e`; the result `m * 2 ^ e` is finite when it is at most the largest double,
`(2 ^ 53 - 1) * 2 ^ 971`. -/
def roundDouble (n : Nat) : Option Nat :=
  if n < 2 ^ 53 then some n
  else
    let e := doubleShift 1100 n
    let q := n / 2 ^ e
    let r := n % 2 ^ e
    let m := if 2 ^ e < 2 * r ∨ (2 * r = 2 ^ e ∧ q % 2 = 1) then q + 1 else q
    if e < 971 ∨ (e = 971 ∧ m < 2 ^ 53) then some (m * 2 ^ e) else none

/-- The number `page` or `limit` stands for in the arithmetic of the handler:
the default when the parameter is missing, else the double read from its
digits. -/
def paramNumber (param : Option Nat) (default : Nat) : Option Nat :=
  match param with
  | none => some default
  | some n => roundDouble n

/-- The parameter bound to `LIMIT`: the default 20, or the digits of `limit` as
they are, which the server refuses when they exceed its `bigint`.  The messages
of the server are given without the value they quote. -/
def limitParam (limit : Option Nat) : Except String Nat :=
  match limit with
  | none => Except.ok 20
  | some n =>
    if n < 2 ^ 63 then Except.ok n
    else Except.error "value is out of range for type bigint"

/-- The parameter bound to `OFFSET`: `(page - 1) * limit` computed in doubles,
which the server refuses when it is negative, beyond its `bigint`, infinite or
not a number. -/
def offsetParam (page limit : Option Nat) : Except String Nat :=
  match page, limit with
  | some p, some l =>
    if p = 0 then
      if l = 0 then Except.ok 0 else Except.error "OFFSET must not be negative"
    else
      match roundDouble (p - 1) with
      | none => Except.error "invalid input syntax for type bigint"
      | some q =>
        match roundDouble (q * l) with
        | none => Except.error "invalid input syntax for type bigint"
        | some o =>
          if o < 2 ^ 63 then Except.ok o
          else Except.error "value is out of range for type bigint"
  | _, _ => Except.error "invalid input syntax for type bigint"

/-- The value `Math.ceil(total / limit)`; the quotient of doubles is taken to
be exact, as it is for counts below `2 ^ 53`. -/
def totalPagesOf (total : Nat) (limit : Option Nat) : Option Nat :=
  match limit with
  | none => some 0
  | some l => if l = 0 then none else some ((total + l - 1) / l)

/-- The rows the optional `WHERE status = $1` keeps: all rows when `status` is
missing or empty. -/
def matchingLogs (status : Option String) (logs : List ProcessingLog) : List ProcessingLog :=
  match status with
  | some s => if s ≠ "" then logs.filter (fun r => r.status = s) else logs
  | none => logs

/-- The clause `ORDER BY started_at DESC`: the name is that of the output
column `started_at AT TIME ZONE 'UTC' AT TIME ZONE 'America/New_York' as
started_at`, so the rows are ordered by the converted value. -/
def orderByStartedDesc (zones : TimeZones) (logs : List ProcessingLog) : List ProcessingLog :=
  logs.insertionSort (fun a b => zones.newYork b.started_at ≤ zones.newYork a.started_at)

/-- A row as the response carries it: the two timestamps converted by the
SELECT list and printed again by `toISOString`. -/
def presentLog (zones : TimeZones) (r : ProcessingLog) : ProcessingLog :=
  { r with started_at := zones.reread (zones.newYork r.started_at)
           completed_at := r.completed_at.map (fun t => zones.reread (zones.newYork t)) }

/-- The handler `getLogs` over the rows of `processing_logs`; statement 0 is
the page query and statement 1 the count. -/
def getLogs (env : Env) (zones : TimeZones) (logs : List ProcessingLog) (params : LogsParams) :
    LogsResponse :=
  let page := paramNumber params.page 1
  let limit := paramNumber params.limit 20
  match env.fails 0 with
  | some message => LogsResponse.failure 500 "Failed to fetch logs" message
  | none =>
    match limitParam params.limit, offsetParam page limit with
    | Except.error message, _ => LogsResponse.failure 500 "Failed to fetch logs" message
    | Except.ok _, Except.error message =>
      LogsResponse.failure 500 "Failed to fetch logs" message
    | Except.ok rowLimit, Except.ok offset =>
      let rows :=
        ((orderByStartedDesc zones (matchingLogs params.status logs)).drop offset).take rowLimit
      match env.fails 1 with
      | some message => LogsResponse.failure 500 "Failed to fetch logs" message
      | none =>
        let count := (matchingLogs params.status logs).length
        LogsResponse.success (rows.map (presentLog zones)) count page (totalPagesOf count limit)

/-- Time zones for examples in which every conversion is the identity. -/
def plainZones : TimeZones :=
  { newYork := fun t => t, reread := fun w => w }

/-- The conversion to New York wall-clock time around the end of daylight
saving time on 2024-11-03 (06:00 UTC, 1730613600000 ms): four hours behind UTC
before it, five hours behind from then on. -/
def autumnZones : TimeZones :=
  { newYork := fun t => if t < 1730613600000 then t - 14400000 else t - 18000000
    reread := fun w => w }

/-- Two logs started at 05:45 and at 06:15 UTC on 2024-11-03. -/
def autumnLogs : List ProcessingLog :=
  [{ id := 1, batch_id := JsVal.str "early", source := JsVal.str "api", status := "completed",
     total_items := 1, processed_count := 1, error_count := 0, errors := some [],
     error_message := none, started_at := 1730612700000, completed_at := none },
   { id := 2, batch_id := JsVal.str "late", source := JsVal.str "api", status := "completed",
     total_items := 1, processed_count := 1, error_count := 0, errors := some [],
     error_message := none, started_at := 1730614500000, completed_at := none }]

/-- A log store with one row completed long ago, one completed recently and
one still processing; no archive yet. -/
def sampleLogDb : LogDb :=
  { tables :=
      { processing_logs :=
          [{ id := 1, batch_id := JsVal.str "old", source := JsVal.str "api",
             status := "completed", total_items := 1, processed_count := 1, error_count := 0,
             errors := some [], error_message := none, started_at := 10,
             completed_at := some 20 },
           { id := 2, batch_id := JsVal.str "recent", source := JsVal.str "api",
             status := "completed", total_items := 1, processed_count := 1, error_count := 0,
             errors := some [], error_message := none, started_at := 4000000000,
             completed_at := some 4000000010 },
           { id := 3, batch_id := JsVal.str "running", source := JsVal.str "api",
             status := "processing", total_items := 1, processed_count := 0, error_count := 0,
             errors := none, error_message := none, started_at := 5, completed_at := none }]
        processing_logs_archive := [] }
    snapshot := none
    txTime := 0 }

/-- An environment in which no statement fails and the server time is
5000000000 (more than thirty days after 20, less than thirty days after
4000000010). -/
def archiveEnv : Env :=
  { sampleEnv with dbNow := fun _ => 5000000000 }

/-- A log row with the given `id`, started at time `id`. -/
def logAt (id : Nat) : ProcessingLog :=
  { id := id, batch_id := JsVal.str "b", source := JsVal.str "api", status := "completed",
    total_items := 1, processed_count := 1, error_count := 0, errors := some [],
    error_message := none, started_at := id, completed_at := some id }

/-- Twenty-five stored logs. -/
def twentyFiveLogs : List ProcessingLog :=
  (List.range 25).map logAt

/-! ## processInventoryData on an array with a `null` or `undefined` element -/

/-- The request body with `items` as it arrives: any value, or an array whose
elements may be `null` or `undefined`. -/
structure RawRequest where
  batch_id : JsVal
  items : JsInput
  source : JsVal
  deriving DecidableEq, Repr

/-- The default `source = 'api'` of the destructuring. -/
def RawRequest.sourceOrDefault (req : RawRequest) : JsVal :=
  if req.source = JsVal.undefined then JsVal.str "api" else req.source

/-- The objects of an array whose elements are all objects, or else the
TypeError with which its first `null` or `undefined` element rejects its
callback: reading `item.serialnumber` throws in the `try` block and again in the
item's `catch` block, so the error leaves the callback. -/
def objectsOrRejection : List Elem → Except String (List JsObject)
  | [] => Except.ok []
  | Elem.obj o :: rest =>
    match objectsOrRejection rest with
    | Except.ok os => Except.ok (o :: os)
    | Except.error message => Except.error message
  | Elem.null :: _ => Except.error "Cannot read properties of null (reading 'serialnumber')"
  | Elem.undefined :: _ =>
    Except.error "Cannot read properties of undefined (reading 'serialnumber')"

/-- The synchronous start of every item callback, as `startItems`, for an array
that may hold `null` or `undefined`: such an element sends nothing (its callback
is rejected), the other elements start as usual. -/
def startElems (env : Env) : Client → ItemsState → Nat → List Elem →
    Client × ItemsState × List Pending
  | c, st, _, [] => (c, st, [])
  | c, st, i, Elem.obj item :: rest =>
    if (item.prop "serialnumber").truthy then
      let r := c.query env (Query.supersede (item.prop "serialnumber").toStr)
      let out := startElems env r.1 st (i + 1) rest
      (out.1, out.2.1, { index := i, item := item, result := r.2 } :: out.2.2)
    else
      startElems env c (st.fail item "Missing serial number") (i + 1) rest
  | c, st, i, _ :: rest => startElems env c st (i + 1) rest

/-- The handler when some element of the array is `null` or `undefined`, after
BEGIN and the log insert have succeeded with `processingLogId`.  `Promise.all`
rejects as soon as the start of the callbacks is over, so the `catch` block
sends its ROLLBACK behind the UPDATEs of the other items; each of these items
goes on when its UPDATE returns and sends its INSERT behind the ROLLBACK; the
statements of the secondary attempt follow once the ROLLBACK has returned. -/
def abortOnRejection (env : Env) (source : JsVal) (c : Client) (processingLogId : Nat)
    (elems : List Elem) (message : String) : Outcome :=
  let started := startElems env c { errors := [], processedCount := 0, errorCount := 0 } 0 elems
  let rolledBack := (started.1.query env Query.rollback).1
  let continued := continueItems env source rolledBack started.2.1 started.2.2
  let marked :=
    if processingLogId ≠ 0 then markLogFailed env continued.1 message processingLogId
    else continued.1
  { client := marked.release
    response := Response.failure 500 "Failed to process inventory data" message }

/-- The handler `processInventoryData` on any request body.  When `items` is
not an array, or an array whose elements are all objects, the run is the one of
`processInventoryData` above.  Otherwise the validation passes, BEGIN and the
log insert are sent as usual, and the item step is rejected by the first `null`
or `undefined` element. -/
def processInventoryRequest (env : Env) (db : Db) (req : RawRequest) : Outcome :=
  match req.items with
  | JsInput.other v =>
    processInventoryData env db
      { batch_id := req.batch_id, items := ItemsArg.other v, source := req.source }
  | JsInput.array elems =>
    match objectsOrRejection elems with
    | Except.ok items =>
      processInventoryData env db
        { batch_id := req.batch_id, items := ItemsArg.array items, source := req.source }
    | Except.error message =>
      let client := connect db
      let b := client.query env Query.begin
      match b.2 with
      | Except.error failure => failWith env b.1 none false failure
      | Except.ok _ =>
        let l := b.1.query env
          (Query.insertLog req.batch_id req.sourceOrDefault "processing" elems.length 0 0)
        match l.2 with
        | Except.error failure => failWith env l.1 none true failure
        | Except.ok none =>
          failWith env l.1 none true "Cannot read properties of undefined (reading 'id')"
        | Except.ok (some processingLogId) =>
          abortOnRejection env req.sourceOrDefault l.1 processingLogId elems message

/-- A short name of a statement, for reading a trace. -/
def Query.summary : Query → String
  | .begin => "BEGIN"
  | .commit => "COMMIT"
  | .rollback => "ROLLBACK"
  | .insertLog _ _ _ _ _ _ => "INSERT processing_logs"
  | .supersede s => "UPDATE system_records " ++ s
  | .insertRecord r => "INSERT system_records " ++ r.serialnumber
  | .finalizeLog _ _ _ _ _ => "UPDATE processing_logs"
  | .markFailed _ _ => "UPDATE processing_logs failed"

/-- The body `{batch_id: 'b1', items: [null, {serialnumber: 'S2'}]}`. -/
def nullItemRequest : RawRequest :=
  { batch_id := JsVal.str "b1"
    items := JsInput.array [Elem.null, Elem.obj [("serialnumber", JsVal.str "S2")]]
    source := JsVal.undefined }

/-- A request with the single item `{serialnumber: "S1", model: "Y", created_at:
"not-a-date"}`: a batch B whose timestamp cannot be parsed. -/
def secondIngestBadDate : Request :=
  { batch_id := JsVal.str "B"
    items := ItemsArg.array
      [[("serialnumber", JsVal.str "S1"), ("model", JsVal.str "Y"),
        ("created_at", JsVal.str "not-a-date")]]
    source := JsVal.undefined }

/-! # Properties

Everything above is definitions; everything below is theorems. -/

/-! ## The serialization determines the list -/

theorem unhex_hexDigit : ∀ n < 16, unhex (hexDigit n) = n := by
  decide

theorem char_eq_of_toNat_eq {c : Char} {n : Nat} (h : c.toNat = n) : c = Char.ofNat n := by
  rw [← h, Char.ofNat_toNat]

theorem unescape_escapeChar (c : Char) (r : List Char) :
    unescape (escapeChar c ++ r) = some (c, r) := by
  unfold escapeChar
  by_cases h1 : c = dquote
  · subst h1; rfl
  rw [if_neg h1]
  by_cases h2 : c = bslash
  · subst h2; rfl
  rw [if_neg h2]
  by_cases h3 : c.toNat = 8
  · rw [if_pos h3]; rw [char_eq_of_toNat_eq h3]; rfl
  rw [if_neg h3]
  by_cases h4 : c.toNat = 12
  · rw [if_pos h4]; rw [char_eq_of_toNat_eq h4]; rfl
  rw [if_neg h4]
  by_cases h5 : c.toNat = 10
  · rw [if_pos h5]; rw [char_eq_of_toNat_eq h5]; rfl
  rw [if_neg h5]
  by_cases h6 : c.toNat = 13
  · rw [if_pos h6]; rw [char_eq_of_toNat_eq h6]; rfl
  rw [if_neg h6]
  by_cases h7 : c.toNat = 9
  · rw [if_pos h7]; rw [char_eq_of_toNat_eq h7]; rfl
  rw [if_neg h7]
  by_cases h8 : c.toNat < 32
  · rw [if_pos h8]
    have hd : c.toNat / 16 < 16 := by omega
    have hm : c.toNat % 16 < 16 := by omega
    have e : unescape ([bslash, 'u', '0', '0', hexDigit (c.toNat / 16), hexDigit (c.toNat % 16)] ++ r)
        = some (Char.ofNat (16 * unhex (hexDigit (c.toNat / 16)) + unhex (hexDigit (c.toNat % 16))), r) := rfl
    rw [e, unhex_hexDigit _ hd, unhex_hexDigit _ hm, Nat.div_add_mod, Char.ofNat_toNat]
  · rw [if_neg h8]
    show unescape (c :: r) = some (c, r)
    simp [unescape, h2]

theorem escapeChar_append_inj {c d : Char} {r r' : List Char}
    (h : escapeChar c ++ r = escapeChar d ++ r') : c = d ∧ r = r' := by
  have e := congrArg unescape h
  rw [unescape_escapeChar, unescape_escapeChar] at e
  simpa using e

theorem escapeChar_append_ne_dquote (c : Char) (r r' : List Char) :
    escapeChar c ++ r ≠ dquote :: r' := by
  intro h
  have e := congrArg unescape h
  rw [unescape_escapeChar] at e
  have e2 : unescape (dquote :: r') = some (dquote, r') := rfl
  rw [e2] at e
  simp only [Option.some.injEq, Prod.mk.injEq] at e
  rw [e.1] at h
  have h' : bslash :: dquote :: r = dquote :: r' := h
  exact absurd (List.cons.inj h').1 (by decide)

theorem flatMap_escapeChar_inj : ∀ (s t : List Char) (r r' : List Char),
    s.flatMap escapeChar ++ dquote :: r = t.flatMap escapeChar ++ dquote :: r' →
      s = t ∧ r = r'
  | [], [], r, r', h => by simpa using h
  | [], d :: t, r, r', h => by
    rw [List.flatMap_cons, List.flatMap_nil, List.nil_append, List.append_assoc] at h
    exact absurd h.symm (escapeChar_append_ne_dquote _ _ _)
  | c :: s, [], r, r', h => by
    rw [List.flatMap_cons, List.flatMap_nil, List.nil_append, List.append_assoc] at h
    exact absurd h (escapeChar_append_ne_dquote _ _ _)
  | c :: s, d :: t, r, r', h => by
    rw [List.flatMap_cons, List.flatMap_cons, List.append_assoc, List.append_assoc] at h
    obtain ⟨hc, hr⟩ := escapeChar_append_inj h
    obtain ⟨hs, hr'⟩ := flatMap_escapeChar_inj s t r r' hr
    exact ⟨by rw [hc, hs], hr'⟩

theorem recordChars_append_inj {n m : Normalized} {r r' : List Char}
    (h : recordChars n ++ r = recordChars m ++ r') : n = m ∧ r = r' := by
  unfold recordChars quoteChars at h
  simp only [List.cons_append, List.append_assoc, List.cons.injEq, true_and,
    List.append_cancel_left_eq, List.nil_append] at h
  obtain ⟨hs, hr⟩ := flatMap_escapeChar_inj _ _ _ _ h
  refine ⟨?_, by simpa using hr⟩
  cases n; cases m
  simp only [Normalized.mk.injEq]
  exact String.ext hs

theorem recordChars_append_ne {n : Normalized} {r r' : List Char} {c : Char}
    (hc : c ≠ '\x7b') : recordChars n ++ r ≠ c :: r' := by
  intro h
  unfold recordChars at h
  exact hc (List.cons.inj h).1.symm

theorem elementsChars_inj : ∀ (l l' : List Normalized) (r r' : List Char),
    elementsChars l ++ ']' :: r = elementsChars l' ++ ']' :: r' → l = l'
  | [], [], _, _, _ => rfl
  | [], m :: l', r, r', h => by
    cases l' with
    | nil => exact absurd h.symm (recordChars_append_ne (by decide))
    | cons m' l' =>
      simp only [elementsChars, List.nil_append, List.append_assoc] at h
      exact absurd h.symm (recordChars_append_ne (by decide))
  | n :: l, [], r, r', h => by
    cases l with
    | nil => exact absurd h (recordChars_append_ne (by decide))
    | cons n' l =>
      simp only [elementsChars, List.nil_append, List.append_assoc] at h
      exact absurd h (recordChars_append_ne (by decide))
  | n :: l, m :: l', r, r', h => by
    cases l with
    | nil =>
      cases l' with
      | nil =>
        simp only [elementsChars] at h
        rw [(recordChars_append_inj h).1]
      | cons m' l' =>
        simp only [elementsChars, List.append_assoc] at h
        have h2 := (recordChars_append_inj h).2
        simp at h2
    | cons n' l =>
      cases l' with
      | nil =>
        simp only [elementsChars, List.append_assoc] at h
        have h2 := (recordChars_append_inj h).2
        simp at h2
      | cons m' l' =>
        simp only [elementsChars, List.append_assoc, List.cons_append] at h
        obtain ⟨h1, h2⟩ := recordChars_append_inj h
        have h3 := elementsChars_inj (n' :: l) (m' :: l') r r' (by
          simpa [elementsChars] using h2)
        rw [h1, h3]

theorem stringify_injective : Function.Injective stringify := by
  intro l l' h
  unfold stringify stringifyChars at h
  have h1 : '[' :: (elementsChars l ++ [']']) = '[' :: (elementsChars l' ++ [']']) :=
    congrArg String.data h
  exact elementsChars_inj l l' [] [] (List.cons.inj h1).2

/-! ## ChecksumCalculator: properties -/

theorem prop_put (o : JsObject) (k : String) (v : JsVal) : (o.put k v).prop k = v := by
  induction o with
  | nil => simp [JsObject.put, JsObject.prop, List.lookup]
  | cons p rest ih =>
    obtain ⟨k', v'⟩ := p
    unfold JsObject.put
    split_ifs with h
    · simp [JsObject.prop, List.lookup]
    · have hk : (k == k') = false := by simpa using fun e => h e.symm
      simpa [JsObject.prop, List.lookup, hk] using ih

theorem objects_map_obj (items : List JsObject) : objects (items.map Elem.obj) = some items := by
  induction items with
  | nil => rfl
  | cons o rest ih => simp [objects, ih]

theorem calculate_array (rt : Runtime) (items : List JsObject) :
    calculate rt (JsInput.array (items.map Elem.obj)) = Except.ok (rt.sha256Hex (jsonString rt items)) := by
  simp [calculate, objects_map_obj, pure, Except.pure]

/-- C1 (evaluation at the failing input).  For the array `[{}, {serialnumber:
"undefined"}]` and its reversal both sort keys are the string "undefined", so
the comparator cannot tell the two items apart and the stable sort keeps each
array in its input order, while `normalizeItem` maps the first item to "" and
the second to "undefined": whatever the comparator answers, `calculate` hashes
two different strings for the two orders. -/
theorem calculate_order_dependent (rt : Runtime) :
    jsonString rt [[], [("serialnumber", JsVal.str "undefined")]]
        ≠ jsonString rt [[("serialnumber", JsVal.str "undefined")], []]
      ∧ calculate rt (JsInput.array [Elem.obj [], Elem.obj [("serialnumber", JsVal.str "undefined")]])
          = Except.ok (rt.sha256Hex (jsonString rt [[], [("serialnumber", JsVal.str "undefined")]]))
      ∧ calculate rt (JsInput.array [Elem.obj [("serialnumber", JsVal.str "undefined")], Elem.obj []])
          = Except.ok (rt.sha256Hex (jsonString rt [[("serialnumber", JsVal.str "undefined")], []])) := by
  refine ⟨?_, rfl, rfl⟩
  unfold jsonString normalizedItems sortedItems
  simp only [List.insertionSort, List.orderedInsert]
  have key : ∀ a b : JsObject, a.prop "serialnumber" = JsVal.undefined →
      b.prop "serialnumber" = JsVal.str "undefined" →
      (sortBefore rt a b ↔ rt.localeCompare "undefined" "undefined" ≤ 0) ∧
      (sortBefore rt b a ↔ rt.localeCompare "undefined" "undefined" ≤ 0) := by
    intro a b ha hb
    unfold sortBefore
    rw [ha, hb]
    exact ⟨Iff.rfl, Iff.rfl⟩
  obtain ⟨h1, h2⟩ := key [] [("serialnumber", JsVal.str "undefined")] rfl rfl
  by_cases h : rt.localeCompare "undefined" "undefined" ≤ 0
  · rw [if_pos (h1.mpr h), if_pos (h2.mpr h)]
    decide
  · rw [if_neg (fun c => h (h1.mp c)), if_neg (fun c => h (h2.mp c))]
    decide

/-- C2.  `verify` never raises: it returns a boolean for every `items` and
every `providedChecksum`; the boolean is `true` exactly when `calculate`
succeeds with a digest strictly equal to `providedChecksum`; it is `false`
whenever `calculate` throws; and `verify(null, "abc")` is `false`. -/
theorem verify_fail_closed (rt : Runtime) (items : JsInput) (providedChecksum : JsVal) :
    (∃ b, verify rt items providedChecksum = Except.ok b)
      ∧ (verify rt items providedChecksum = Except.ok true ↔
          ∃ d, calculate rt items = Except.ok d ∧ providedChecksum = JsVal.str d)
      ∧ ((∃ e, calculate rt items = Except.error e) →
          verify rt items providedChecksum = Except.ok false)
      ∧ verify rt (JsInput.other JsVal.null) (JsVal.str "abc") = Except.ok false := by
  refine ⟨?_, ?_, ?_, rfl⟩
  · cases h : calculate rt items with
    | error e => exact ⟨false, by simp [verify, h, tryCatch, tryCatchThe, MonadExceptOf.tryCatch, Except.tryCatch, bind, Except.bind, pure, Except.pure]⟩
    | ok d => exact ⟨strictEqStr d providedChecksum, by simp [verify, h, tryCatch, tryCatchThe, MonadExceptOf.tryCatch, Except.tryCatch, bind, Except.bind, pure, Except.pure]⟩
  · cases h : calculate rt items with
    | error e => simp [verify, h, tryCatch, tryCatchThe, MonadExceptOf.tryCatch, Except.tryCatch, bind, Except.bind, pure, Except.pure]
    | ok d =>
      cases providedChecksum <;>
        simp [verify, h, tryCatch, tryCatchThe, MonadExceptOf.tryCatch, Except.tryCatch, bind, Except.bind, pure, Except.pure, strictEqStr]
      exact eq_comm
  · rintro ⟨e, h⟩
    simp [verify, h, tryCatch, tryCatchThe, MonadExceptOf.tryCatch, Except.tryCatch, bind, Except.bind, pure, Except.pure]

theorem normalizedItems_perm (rt : Runtime) (items : List JsObject) :
    (normalizedItems rt items).Perm (items.map normalizeItem) :=
  (List.perm_insertionSort (sortBefore rt) items).map normalizeItem

theorem normalizeItem_put (o : JsObject) (v : JsVal) :
    normalizeItem (o.put "serialnumber" v) = ⟨(v.orElse (JsVal.str "")).toStr⟩ := by
  unfold normalizeItem
  rw [prop_put]

theorem count_replaceSerial (a : Normalized) :
    ∀ (items : List JsObject) (i : Nat) (v : JsVal) (hi : i < items.length),
      normalizeItem items[i] = a → (⟨(v.orElse (JsVal.str "")).toStr⟩ : Normalized) ≠ a →
      ((replaceSerial items i v).map normalizeItem).count a + 1 = (items.map normalizeItem).count a
  | [], _, _, hi, _, _ => absurd hi (by simp)
  | o :: rest, 0, v, _, ha, hv => by
    have hv' : normalizeItem (o.put "serialnumber" v) ≠ a := by
      rw [normalizeItem_put]; exact hv
    have ha' : normalizeItem o = a := ha
    simp only [replaceSerial, List.map_cons]
    rw [List.count_cons_of_ne (Ne.symm hv'), ← ha', List.count_cons_self]
  | o :: rest, i + 1, v, hi, ha, hv => by
    have ih := count_replaceSerial a rest i v (by simpa using hi) ha hv
    simp only [replaceSerial, List.map_cons, List.count_cons]
    omega

/-- C3 (counterexample).  Replacing the serialnumber "" of the only item of
`[{serialnumber: ""}]` by the number 0 leaves the string that `calculate`
hashes unchanged, under every runtime: both values are falsy and
`normalizeItem` writes "" for both. -/
theorem serial_change_undetected :
    ¬ ∃ rt : Runtime,
        jsonString rt (replaceSerial [[("serialnumber", JsVal.str "")]] 0 (JsVal.num 0))
          ≠ jsonString rt [[("serialnumber", JsVal.str "")]] := by
  rintro ⟨rt, h⟩
  exact h rfl

/-- C3 (amended).  Replacing the serialnumber of item `i` by a value whose
normalized string `String(v || '')` differs from that of the old value changes
the string that `calculate` hashes. -/
theorem serial_change_detected (rt : Runtime) (items : List JsObject) (i : Nat)
    (hi : i < items.length) (v : JsVal)
    (hv : (v.orElse (JsVal.str "")).toStr
        ≠ (((items[i]).prop "serialnumber").orElse (JsVal.str "")).toStr) :
    jsonString rt (replaceSerial items i v) ≠ jsonString rt items := by
  intro h
  have hn := stringify_injective h
  have hp : ((replaceSerial items i v).map normalizeItem).Perm (items.map normalizeItem) :=
    ((normalizedItems_perm rt _).symm.trans (hn ▸ List.Perm.refl _)).trans
      (normalizedItems_perm rt items)
  have hc := count_replaceSerial (normalizeItem items[i]) items i v hi rfl (by
    intro e
    exact hv (congrArg Normalized.serialnumber e))
  have := hp.count_eq (normalizeItem items[i])
  omega

/-- C3 (witness of the amended statement): "S1" replaced by "S2". -/
theorem serial_change_detected_witness :
    jsonString sampleRuntime (replaceSerial [[("serialnumber", JsVal.str "S1")]] 0 (JsVal.str "S2"))
      ≠ jsonString sampleRuntime [[("serialnumber", JsVal.str "S1")]] :=
  serial_change_detected sampleRuntime [[("serialnumber", JsVal.str "S1")]] 0 (by decide)
    (JsVal.str "S2") (by decide)

theorem normalizedItems_eq_of_serials (rt : Runtime) (items : List JsObject) :
    normalizedItems rt items
      = ((items.map (fun o => o.prop "serialnumber")).insertionSort (serialBefore rt)).map
          (fun v => (⟨(v.orElse (JsVal.str "")).toStr⟩ : Normalized)) := by
  unfold normalizedItems sortedItems
  rw [← List.map_insertionSort (sortBefore rt) (serialBefore rt)
    (fun o : JsObject => o.prop "serialnumber") items (fun a _ b _ => Iff.rfl)]
  rw [List.map_map]
  rfl

/-- C4.  Two arrays of records that agree, position by position, on the
`serialnumber` of their items (whatever their other properties) get the same
result from `calculate`. -/
theorem calculate_depends_only_on_serials (rt : Runtime) (xs ys : List JsObject)
    (hlen : xs.length = ys.length)
    (h : ∀ (i : Nat) (hx : i < xs.length) (hy : i < ys.length),
      (xs[i]).prop "serialnumber" = (ys[i]).prop "serialnumber") :
    calculate rt (JsInput.array (xs.map Elem.obj)) = calculate rt (JsInput.array (ys.map Elem.obj)) := by
  have hm : xs.map (fun o => o.prop "serialnumber") = ys.map (fun o => o.prop "serialnumber") := by
    apply List.ext_getElem
    · simpa using hlen
    · intro i h1 h2
      simpa using h i (by simpa using h1) (by simpa using h2)
  rw [calculate_array, calculate_array]
  unfold jsonString
  rw [normalizedItems_eq_of_serials, normalizedItems_eq_of_serials, hm]

/-- C4 (witness): two records with the serial "S1" and different other
properties. -/
theorem calculate_depends_only_on_serials_witness :
    calculate sampleRuntime
        (JsInput.array ([[("serialnumber", JsVal.str "S1"), ("model", JsVal.str "X")]].map Elem.obj))
      = calculate sampleRuntime
        (JsInput.array ([[("cpu", JsVal.num 4), ("serialnumber", JsVal.str "S1")]].map Elem.obj)) :=
  calculate_depends_only_on_serials sampleRuntime
    [[("serialnumber", JsVal.str "S1"), ("model", JsVal.str "X")]]
    [[("cpu", JsVal.num 4), ("serialnumber", JsVal.str "S1")]] rfl (by
      intro i hx hy
      have hi : i = 0 := by simpa using hx
      subst hi
      rfl)

theorem codepointCompareChars_total : ∀ a b : List Char,
    codepointCompareChars a b ≤ 0 ∨ codepointCompareChars b a ≤ 0
  | [], [] => by simp [codepointCompareChars]
  | [], _ :: _ => by simp [codepointCompareChars]
  | _ :: _, [] => by simp [codepointCompareChars]
  | a :: as, b :: bs => by
    have ih := codepointCompareChars_total as bs
    simp only [codepointCompareChars]
    split_ifs <;> omega

theorem codepointCompareChars_trans : ∀ a b c : List Char,
    codepointCompareChars a b ≤ 0 → codepointCompareChars b c ≤ 0 →
      codepointCompareChars a c ≤ 0
  | [], _, [] => by simp [codepointCompareChars]
  | [], _, _ :: _ => by simp [codepointCompareChars]
  | _ :: _, [], _ => by simp [codepointCompareChars]
  | _ :: _, _ :: _, [] => by simp [codepointCompareChars]
  | a :: as, b :: bs, c :: cs => by
    have ih := codepointCompareChars_trans as bs cs
    simp only [codepointCompareChars]
    split_ifs <;> omega

/-- C5 (counterexample).  For `[{serialnumber: 0}]` the string `calculate`
hashes is `[{"serialnumber":""}]` under every runtime (0 is falsy, so
`item.serialnumber || ''` is the empty string), while the reference definition
of the specification serializes `[{"serialnumber":"0"}]`. -/
theorem calculate_differs_from_reference :
    ¬ ∃ rt : Runtime,
        jsonString rt [[("serialnumber", JsVal.num 0)]]
          = specJsonString [[("serialnumber", JsVal.num 0)]] := by
  rintro ⟨rt, h⟩
  have e : jsonString rt [[("serialnumber", JsVal.num 0)]]
      = jsonString sampleRuntime [[("serialnumber", JsVal.num 0)]] := rfl
  rw [e] at h
  revert h
  decide

/-- C5 (amended).  When `localeCompare` is a total preorder, `calculate(items)`
is the SHA-256 hex digest of the compact JSON serialization of a list obtained
by (a) sorting a copy of `items` (a permutation of it, with as many entries) by
`String(serialnumber)` in the order of `localeCompare` and (b) mapping each item
to the one-property record `{serialnumber: String(item.serialnumber || '')}`. -/
theorem calculate_refines_amended (rt : Runtime)
    (htotal : ∀ a b, rt.localeCompare a b ≤ 0 ∨ rt.localeCompare b a ≤ 0)
    (htrans : ∀ a b c, rt.localeCompare a b ≤ 0 → rt.localeCompare b c ≤ 0 →
      rt.localeCompare a c ≤ 0)
    (items : List JsObject) :
    ∃ sorted : List JsObject,
      sorted.Perm items ∧ sorted.length = items.length
        ∧ sorted.Pairwise (fun a b =>
            rt.localeCompare (a.prop "serialnumber").toStr (b.prop "serialnumber").toStr ≤ 0)
        ∧ calculate rt (JsInput.array (items.map Elem.obj))
            = Except.ok (rt.sha256Hex (stringify (sorted.map (fun item =>
                (⟨((item.prop "serialnumber").orElse (JsVal.str "")).toStr⟩ : Normalized))))) := by
  haveI : IsTotal JsObject (sortBefore rt) := ⟨fun a b => htotal _ _⟩
  haveI : IsTrans JsObject (sortBefore rt) := ⟨fun a b c => htrans _ _ _⟩
  refine ⟨sortedItems rt items, List.perm_insertionSort _ _, List.length_insertionSort _ _,
    List.sorted_insertionSort (sortBefore rt) items, ?_⟩
  rw [calculate_array]
  rfl

/-- C5 (witness of the amended statement): code point comparison is a total
preorder; the batch is `[{serialnumber: "B1"}, {serialnumber: 0}]`. -/
theorem calculate_refines_amended_witness :
    ∃ sorted : List JsObject,
      sorted.Perm [[("serialnumber", JsVal.str "B1")], [("serialnumber", JsVal.num 0)]]
        ∧ sorted.length
            = [[("serialnumber", JsVal.str "B1")], [("serialnumber", JsVal.num 0)]].length
        ∧ sorted.Pairwise (fun a b =>
            sampleRuntime.localeCompare (a.prop "serialnumber").toStr
              (b.prop "serialnumber").toStr ≤ 0)
        ∧ calculate sampleRuntime (JsInput.array
              ([[("serialnumber", JsVal.str "B1")], [("serialnumber", JsVal.num 0)]].map Elem.obj))
            = Except.ok (sampleRuntime.sha256Hex (stringify (sorted.map (fun item =>
                (⟨((item.prop "serialnumber").orElse (JsVal.str "")).toStr⟩ : Normalized))))) :=
  calculate_refines_amended sampleRuntime
    (fun a b => codepointCompareChars_total a.data b.data)
    (fun a b c => codepointCompareChars_trans a.data b.data c.data)
    [[("serialnumber", JsVal.str "B1")], [("serialnumber", JsVal.num 0)]]

/-! ## processInventoryData: properties -/

theorem query_of_not_fails (env : Env) (c : Client) (q : Query)
    (h : env.fails c.issued.length = none) :
    c.query env q =
      ({ c with db := (exec (env.dbNow c.issued.length) c.db q).1,
                issued := c.issued ++ [(q, true)] },
        Except.ok (exec (env.dbNow c.issued.length) c.db q).2) := by
  unfold Client.query
  rw [h]

/-- C6 (evaluation at the failing input).  On an empty store, which satisfies
the invariant, the batch `[{serialnumber: "S1"}, {serialnumber: "S1"}]` is
processed without any failure and committed, both UPDATEs are sent before both
INSERTs, and afterwards two rows of "S1" have `is_current = true`. -/
theorem duplicate_serial_breaks_invariant :
    AtMostOneCurrent emptyDb.tables.system_records
      ∧ (processInventoryData sampleEnv emptyDb
          { batch_id := JsVal.str "b1", source := JsVal.undefined,
            items := ItemsArg.array
              [[("serialnumber", JsVal.str "S1")], [("serialnumber", JsVal.str "S1")]] }).response.isSuccess
          = true
      ∧ (processInventoryData sampleEnv emptyDb
          { batch_id := JsVal.str "b1", source := JsVal.undefined,
            items := ItemsArg.array
              [[("serialnumber", JsVal.str "S1")], [("serialnumber", JsVal.str "S1")]] }).client.db.snapshot
          = none
      ∧ ((processInventoryData sampleEnv emptyDb
          { batch_id := JsVal.str "b1", source := JsVal.undefined,
            items := ItemsArg.array
              [[("serialnumber", JsVal.str "S1")], [("serialnumber", JsVal.str "S1")]] }).client.issued.map
            (fun e => match e.1 with
              | Query.supersede s => "UPDATE " ++ s
              | Query.insertRecord r => "INSERT " ++ r.serialnumber
              | _ => ""))
          = ["", "", "UPDATE S1", "UPDATE S1", "INSERT S1", "INSERT S1", "", ""]
      ∧ ¬ AtMostOneCurrent (processInventoryData sampleEnv emptyDb
          { batch_id := JsVal.str "b1", source := JsVal.undefined,
            items := ItemsArg.array
              [[("serialnumber", JsVal.str "S1")], [("serialnumber", JsVal.str "S1")]] }).client.db.tables.system_records := by
  refine ⟨fun s => by simp [emptyDb], by decide, by decide, by decide, ?_⟩
  intro h
  have h1 := h "S1"
  revert h1
  decide

/-- C8 (evaluation at the failing input).  With no failing statement and
"not-a-date" read as an invalid date, the batch `[{serialnumber: "S1",
created_at: "not-a-date"}]` commits with `processed_count = 0`, `error_count =
1` and the error "Invalid time value" for "S1", and no row is inserted (the
table keeps its length); the helper `ensureTimestamp` would have returned the
current time for the same value. -/
theorem unparsable_timestamp_fails_item (env : Env) (db : Db)
    (hq : ∀ n, env.fails n = none)
    (hd : env.parseDate (JsVal.str "not-a-date") = none) :
    (processInventoryData env db
        { batch_id := JsVal.str "b1", source := JsVal.undefined,
          items := ItemsArg.array
            [[("serialnumber", JsVal.str "S1"), ("created_at", JsVal.str "not-a-date")]] }).response
      = Response.success "Data processing completed" (JsVal.str "b1")
          { batch_id := JsVal.str "b1", total_items := 1, processed_count := 0,
            error_count := 1, status := "completed_with_errors",
            errors := some [{ serialnumber := JsVal.str "S1", error := "Invalid time value" }] }
      ∧ (processInventoryData env db
        { batch_id := JsVal.str "b1", source := JsVal.undefined,
          items := ItemsArg.array
            [[("serialnumber", JsVal.str "S1"), ("created_at", JsVal.str "not-a-date")]] }).client.db.tables.system_records.length
        = db.tables.system_records.length
      ∧ ∀ now, ensureTimestamp env now (JsVal.str "not-a-date") = now := by
  have ht : itemTimestamps env 0
      [("serialnumber", JsVal.str "S1"), ("created_at", JsVal.str "not-a-date")]
      = Except.error "Invalid time value" := by
    have hp : JsObject.prop [("serialnumber", JsVal.str "S1"), ("created_at", JsVal.str "not-a-date")]
        "created_at" = JsVal.str "not-a-date" := by decide
    have htr : (JsVal.str "not-a-date").truthy = true := by decide
    simp [itemTimestamps, timestampOr, hp, hd, htr, bind, Except.bind, throw, throwThe,
      MonadExceptOf.throw]
  have hs : (JsObject.prop [("serialnumber", JsVal.str "S1"), ("created_at", JsVal.str "not-a-date")]
      "serialnumber").truthy = true := by decide
  refine ⟨?_, ?_, ?_⟩
  · simp [processInventoryData, connect, query_of_not_fails, hq, processItems, startItems,
      continueItems, finishItems, ht, hs, exec, ItemsState.fail, Request.sourceOrDefault]
    decide
  · simp [processInventoryData, connect, query_of_not_fails, hq, processItems, startItems,
      continueItems, finishItems, ht, hs, exec, ItemsState.fail, Request.sourceOrDefault,
      Client.release, supersedeRows]
  · intro now
    have htr : (JsVal.str "not-a-date").truthy = true := by decide
    simp [ensureTimestamp, hd, htr]

/-- C8 (witness): the sample environment reads no string as a date. -/
theorem unparsable_timestamp_fails_item_witness :
    (processInventoryData sampleEnv emptyDb
        { batch_id := JsVal.str "b1", source := JsVal.undefined,
          items := ItemsArg.array
            [[("serialnumber", JsVal.str "S1"), ("created_at", JsVal.str "not-a-date")]] }).response
      = Response.success "Data processing completed" (JsVal.str "b1")
          { batch_id := JsVal.str "b1", total_items := 1, processed_count := 0,
            error_count := 1, status := "completed_with_errors",
            errors := some [{ serialnumber := JsVal.str "S1", error := "Invalid time value" }] }
      ∧ (processInventoryData sampleEnv emptyDb
        { batch_id := JsVal.str "b1", source := JsVal.undefined,
          items := ItemsArg.array
            [[("serialnumber", JsVal.str "S1"), ("created_at", JsVal.str "not-a-date")]] }).client.db.tables.system_records.length
        = emptyDb.tables.system_records.length
      ∧ ∀ now, ensureTimestamp sampleEnv now (JsVal.str "not-a-date") = now :=
  unparsable_timestamp_fails_item sampleEnv emptyDb (fun _ => rfl) rfl

/-- C9.  When `items` is not an array or is an empty array, the handler sends
no statement at all, leaves the database as it was, and answers with
`success: false` and the message "No items to process" in `details`. -/
theorem validation_precedes_mutation (env : Env) (db : Db) (req : Request)
    (h : (∃ v, req.items = ItemsArg.other v) ∨ req.items = ItemsArg.array []) :
    (processInventoryData env db req).client.issued = []
      ∧ (processInventoryData env db req).client.db = db
      ∧ (processInventoryData env db req).response
          = Response.failure 500 "Failed to process inventory data" "No items to process"
      ∧ (processInventoryData env db req).response.isSuccess = false := by
  rcases h with ⟨v, h⟩ | h <;>
    simp [processInventoryData, h, failWith, connect, Client.release, Response.isSuccess]

/-- C9 (witness): a request whose `items` is `null`. -/
theorem validation_precedes_mutation_witness :
    (processInventoryData sampleEnv emptyDb
        { batch_id := JsVal.str "b1", source := JsVal.undefined,
          items := ItemsArg.other JsVal.null }).client.issued = []
      ∧ (processInventoryData sampleEnv emptyDb
        { batch_id := JsVal.str "b1", source := JsVal.undefined,
          items := ItemsArg.other JsVal.null }).client.db = emptyDb
      ∧ (processInventoryData sampleEnv emptyDb
        { batch_id := JsVal.str "b1", source := JsVal.undefined,
          items := ItemsArg.other JsVal.null }).response
          = Response.failure 500 "Failed to process inventory data" "No items to process"
      ∧ (processInventoryData sampleEnv emptyDb
        { batch_id := JsVal.str "b1", source := JsVal.undefined,
          items := ItemsArg.other JsVal.null }).response.isSuccess = false :=
  validation_precedes_mutation sampleEnv emptyDb _ (Or.inl ⟨JsVal.null, rfl⟩)

theorem startItems_cons_of_falsy (env : Env) (c : Client) (st : ItemsState) (i : Nat)
    (item : JsObject) (rest : List JsObject) (h : (item.prop "serialnumber").truthy = false) :
    startItems env c st i (item :: rest)
      = startItems env c (st.fail item "Missing serial number") (i + 1) rest := by
  simp [startItems, h]

theorem startItems_spec (env : Env) (hq : ∀ n, env.fails n = none) :
    ∀ (items : List JsObject) (c : Client) (st : ItemsState) (i : Nat),
      (startItems env c st i items).1.db.tables.system_records
          = (items.filter (fun it => (it.prop "serialnumber").truthy)).foldl
              (fun rows it => supersedeRows (it.prop "serialnumber").toStr rows)
              c.db.tables.system_records
        ∧ (startItems env c st i items).1.db.tables.processing_logs
            = c.db.tables.processing_logs
        ∧ (startItems env c st i items).1.db.snapshot = c.db.snapshot
        ∧ (startItems env c st i items).1.db.log_id_seq = c.db.log_id_seq
        ∧ (startItems env c st i items).1.released = c.released
        ∧ (startItems env c st i items).2.1
            = { errors := st.errors ++
                  (items.filter (fun it => !(it.prop "serialnumber").truthy)).map
                    (fun it => { serialnumber := it.prop "serialnumber",
                                 error := "Missing serial number" })
                processedCount := st.processedCount
                errorCount := st.errorCount +
                  (items.filter (fun it => !(it.prop "serialnumber").truthy)).length }
        ∧ (startItems env c st i items).2.2.map (fun p => p.item)
            = items.filter (fun it => (it.prop "serialnumber").truthy)
        ∧ ∀ p ∈ (startItems env c st i items).2.2, ∃ r, p.result = Except.ok r
  | [], c, st, i => by simp [startItems]
  | item :: rest, c, st, i => by
    by_cases h : (item.prop "serialnumber").truthy = true
    · have ih := startItems_spec env hq rest
        (c.query env (Query.supersede (item.prop "serialnumber").toStr)).1 st (i + 1)
      rw [query_of_not_fails env c _ (hq _)] at ih
      obtain ⟨h1, h2, h3, h4, h5, h6, h7, h8⟩ := ih
      simp only [startItems, h, if_true, query_of_not_fails env c _ (hq _)]
      refine ⟨?_, ?_, ?_, ?_, ?_, ?_, ?_, ?_⟩
      · simpa [List.filter, h, exec] using h1
      · simpa [exec] using h2
      · simpa [exec] using h3
      · simpa [exec] using h4
      · simpa using h5
      · simpa [List.filter, h] using h6
      · simpa [List.filter, h] using h7
      · intro p hp
        rcases List.mem_cons.mp hp with hp | hp
        · exact ⟨_, by rw [hp]⟩
        · exact h8 p hp
    · have ih := startItems_spec env hq rest c (st.fail item "Missing serial number") (i + 1)
      obtain ⟨h1, h2, h3, h4, h5, h6, h7, h8⟩ := ih
      have h' : (item.prop "serialnumber").truthy = false := by simpa using h
      rw [startItems_cons_of_falsy env c st i item rest h']
      refine ⟨?_, h2, h3, h4, h5, ?_, ?_, h8⟩
      · simpa [List.filter, h'] using h1
      · rw [h6]
        simp [List.filter, h', ItemsState.fail]
        omega
      · simpa [List.filter, h'] using h7

theorem continueItems_cons_of_ok (env : Env) (source : JsVal) (c : Client) (st : ItemsState)
    (p : Pending) (rest : List Pending) (r : Option Nat) (ts : Nat × Nat × Nat)
    (hr : p.result = Except.ok r) (hts : itemTimestamps env p.index p.item = Except.ok ts) :
    continueItems env source c st (p :: rest)
      = ((continueItems env source
            (c.query env (Query.insertRecord (newRecord source p.item ts))).1 st rest).1,
          (continueItems env source
            (c.query env (Query.insertRecord (newRecord source p.item ts))).1 st rest).2.1,
          { index := p.index, item := p.item,
            result := (c.query env (Query.insertRecord (newRecord source p.item ts))).2 } ::
            (continueItems env source
              (c.query env (Query.insertRecord (newRecord source p.item ts))).1 st rest).2.2) := by
  simp [continueItems, hr, hts]

theorem continueItems_spec (env : Env) (source : JsVal) (hq : ∀ n, env.fails n = none) :
    ∀ (pend : List Pending) (c : Client) (st : ItemsState),
      (∀ p ∈ pend, (∃ r, p.result = Except.ok r)
        ∧ ∃ ts, itemTimestamps env p.index p.item = Except.ok ts) →
      (∃ newRows : List SystemRecord,
          (continueItems env source c st pend).1.db.tables.system_records
              = c.db.tables.system_records ++ newRows
            ∧ newRows.map (fun r => r.serialnumber)
              = pend.map (fun p => (p.item.prop "serialnumber").toStr)
            ∧ ∀ r ∈ newRows, r.is_current = true)
        ∧ (continueItems env source c st pend).1.db.tables.processing_logs
            = c.db.tables.processing_logs
        ∧ (continueItems env source c st pend).1.db.snapshot = c.db.snapshot
        ∧ (continueItems env source c st pend).1.db.log_id_seq = c.db.log_id_seq
        ∧ (continueItems env source c st pend).1.released = c.released
        ∧ (continueItems env source c st pend).2.1 = st
        ∧ (continueItems env source c st pend).2.2.length = pend.length
        ∧ ∀ p ∈ (continueItems env source c st pend).2.2, ∃ r, p.result = Except.ok r
  | [], c, st, _ => by
    exact ⟨⟨[], by simp [continueItems]⟩, rfl, rfl, rfl, rfl, rfl, rfl, by simp [continueItems]⟩
  | p :: rest, c, st, hp => by
    obtain ⟨⟨r, hr⟩, ⟨ts, hts⟩⟩ := hp p (List.mem_cons_self _ _)
    have ih := continueItems_spec env source hq rest
      (c.query env (Query.insertRecord (newRecord source p.item ts))).1 st
      (fun q hq' => hp q (List.mem_cons_of_mem _ hq'))
    rw [continueItems_cons_of_ok env source c st p rest r ts hr hts]
    rw [query_of_not_fails env c _ (hq _)] at ih ⊢
    obtain ⟨⟨newRows, h1, h1', h1''⟩, h2, h3, h4, h5, h6, h7, h8⟩ := ih
    refine ⟨⟨newRecord source p.item ts :: newRows, ?_, ?_, ?_⟩, ?_, ?_, ?_, ?_, h6, ?_, ?_⟩
    · simpa [exec] using h1
    · simpa [newRecord] using h1'
    · intro x hx
      rcases List.mem_cons.mp hx with hx | hx
      · rw [hx]; rfl
      · exact h1'' x hx
    · simpa [exec] using h2
    · simpa [exec] using h3
    · simpa [exec] using h4
    · simpa using h5
    · simpa using h7
    · intro x hx
      rcases List.mem_cons.mp hx with hx | hx
      · exact ⟨_, by rw [hx]⟩
      · exact h8 x hx

theorem finishItems_of_ok : ∀ (pend : List Pending) (st : ItemsState),
    (∀ p ∈ pend, ∃ r, p.result = Except.ok r) →
      finishItems st pend = { st with processedCount := st.processedCount + pend.length }
  | [], st, _ => by simp [finishItems]
  | p :: rest, st, hp => by
    obtain ⟨r, hr⟩ := hp p (List.mem_cons_self _ _)
    have ih := finishItems_of_ok rest st.done (fun q hq => hp q (List.mem_cons_of_mem _ hq))
    have e : st.processedCount + 1 + rest.length = st.processedCount + (rest.length + 1) := by
      omega
    simp only [finishItems, hr, List.length_cons]
    rw [ih]
    simp only [ItemsState.done, e]

theorem itemTimestamps_of_valid (env : Env) (i : Nat) (item : JsObject)
    (h : ∀ key ∈ ["created_at", "started_at", "last_updated_at"],
      (item.prop key).truthy = true → (env.parseDate (item.prop key)).isSome = true) :
    ∃ ts, itemTimestamps env i item = Except.ok ts := by
  have key : ∀ k ∈ ["created_at", "started_at", "last_updated_at"],
      ∃ t, timestampOr env (env.clock i) (item.prop k) = Except.ok t := by
    intro k hk
    unfold timestampOr
    by_cases ht : (item.prop k).truthy = true
    · rw [if_pos ht]
      obtain ⟨t, e⟩ := Option.isSome_iff_exists.mp (h k hk ht)
      rw [e]
      exact ⟨t, rfl⟩
    · rw [if_neg ht]
      exact ⟨_, rfl⟩
  obtain ⟨a, ha⟩ := key "created_at" (by simp)
  obtain ⟨b, hb⟩ := key "started_at" (by simp)
  obtain ⟨d, hd⟩ := key "last_updated_at" (by simp)
  exact ⟨(a, b, d), by simp [itemTimestamps, ha, hb, hd, bind, Except.bind, pure, Except.pure]⟩

theorem length_filter_truthy (items : List JsObject) :
    (items.filter (fun it => (it.prop "serialnumber").truthy)).length
      = items.length - (items.filter (fun it => !(it.prop "serialnumber").truthy)).length := by
  have key : (items.filter (fun it => (it.prop "serialnumber").truthy)).length
      + (items.filter (fun it => !(it.prop "serialnumber").truthy)).length = items.length := by
    induction items with
    | nil => rfl
    | cons item rest ih =>
      by_cases h : (item.prop "serialnumber").truthy = true
      · simp [List.filter, h]; omega
      · have h' : (item.prop "serialnumber").truthy = false := by simpa using h
        simp [List.filter, h']; omega
  omega

theorem processItems_spec (env : Env) (source : JsVal) (hq : ∀ n, env.fails n = none)
    (c : Client) (items : List JsObject)
    (hvalid : ∀ item ∈ items, (item.prop "serialnumber").truthy = true →
      ∀ key ∈ ["created_at", "started_at", "last_updated_at"],
        (item.prop key).truthy = true → (env.parseDate (item.prop key)).isSome = true) :
    (∃ newRows : List SystemRecord,
        (processItems env source c items).1.db.tables.system_records
            = (items.filter (fun it => (it.prop "serialnumber").truthy)).foldl
                (fun rows it => supersedeRows (it.prop "serialnumber").toStr rows)
                c.db.tables.system_records ++ newRows
          ∧ newRows.map (fun r => r.serialnumber)
            = (items.filter (fun it => (it.prop "serialnumber").truthy)).map
                (fun it => (it.prop "serialnumber").toStr)
          ∧ ∀ r ∈ newRows, r.is_current = true)
      ∧ (processItems env source c items).2
          = { errors := (items.filter (fun it => !(it.prop "serialnumber").truthy)).map
                (fun it => { serialnumber := it.prop "serialnumber",
                             error := "Missing serial number" })
              processedCount := items.length
                - (items.filter (fun it => !(it.prop "serialnumber").truthy)).length
              errorCount := (items.filter (fun it => !(it.prop "serialnumber").truthy)).length } := by
  obtain ⟨s1, _, _, _, _, s6, s7, s8⟩ := startItems_spec env hq items c
    { errors := [], processedCount := 0, errorCount := 0 } 0
  have hpend : ∀ p ∈ (startItems env c { errors := [], processedCount := 0, errorCount := 0 } 0
      items).2.2, (∃ r, p.result = Except.ok r)
        ∧ ∃ ts, itemTimestamps env p.index p.item = Except.ok ts := by
    intro p hp
    refine ⟨s8 p hp, ?_⟩
    have hm : p.item ∈ items.filter (fun it => (it.prop "serialnumber").truthy) := by
      rw [← s7]
      exact List.mem_map_of_mem (fun p => p.item) hp
    obtain ⟨hin, htr⟩ := List.mem_filter.mp hm
    exact itemTimestamps_of_valid env p.index p.item (hvalid p.item hin htr)
  obtain ⟨⟨newRows, c1, c1', c1''⟩, _, _, _, _, c6, c7, c8⟩ := continueItems_spec env source hq _
    (startItems env c { errors := [], processedCount := 0, errorCount := 0 } 0 items).1
    (startItems env c { errors := [], processedCount := 0, errorCount := 0 } 0 items).2.1 hpend
  refine ⟨⟨newRows, ?_, ?_, c1''⟩, ?_⟩
  · unfold processItems
    rw [c1, s1]
  · rw [c1', ← s7, List.map_map]
    rfl
  · unfold processItems
    simp only
    rw [finishItems_of_ok _ _ c8, c6, c7, s6]
    have hl : (startItems env c { errors := [], processedCount := 0, errorCount := 0 } 0
        items).2.2.length
        = (items.filter (fun it => (it.prop "serialnumber").truthy)).length := by
      rw [← s7, List.length_map]
    rw [hl, length_filter_truthy]
    simp

/-- Failure isolation for a batch whose elements are all objects.  For a
non-empty batch in which every item with a truthy `serialnumber`
has timestamps that are absent or parsable, and with no failing statement, the
handler commits and answers with `processed_count = items.length - k`,
`error_count = k`, the status "completed" for `k = 0` and
"completed_with_errors" otherwise, and one entry of `errors` for each of the
`k` items without a serial number; the table then consists of the former rows
(those of the batch's serial numbers no longer current) followed by exactly one
new row with `is_current = true` for each valid item. -/
theorem item_failure_isolation (env : Env) (db : Db) (req : Request)
    (items : List JsObject)
    (hitems : req.items = ItemsArg.array items) (hne : items ≠ [])
    (hq : ∀ n, env.fails n = none)
    (hvalid : ∀ item ∈ items, (item.prop "serialnumber").truthy = true →
      ∀ key ∈ ["created_at", "started_at", "last_updated_at"],
        (item.prop key).truthy = true → (env.parseDate (item.prop key)).isSome = true) :
    ∃ (details : Details) (errors : List ItemError) (newRows : List SystemRecord),
      (processInventoryData env db req).response
          = Response.success "Data processing completed" req.batch_id details
        ∧ details.total_items = items.length
        ∧ details.processed_count = items.length
            - (items.filter (fun it => !(it.prop "serialnumber").truthy)).length
        ∧ details.error_count
            = (items.filter (fun it => !(it.prop "serialnumber").truthy)).length
        ∧ details.status
            = (if (items.filter (fun it => !(it.prop "serialnumber").truthy)).length = 0
                then "completed" else "completed_with_errors")
        ∧ details.errors
            = (if (items.filter (fun it => !(it.prop "serialnumber").truthy)).length = 0
                then none else some errors)
        ∧ errors = (items.filter (fun it => !(it.prop "serialnumber").truthy)).map
            (fun it => { serialnumber := it.prop "serialnumber",
                         error := "Missing serial number" })
        ∧ (processInventoryData env db req).client.db.snapshot = none
        ∧ (processInventoryData env db req).client.db.tables.system_records
            = (items.filter (fun it => (it.prop "serialnumber").truthy)).foldl
                (fun rows it => supersedeRows (it.prop "serialnumber").toStr rows)
                db.tables.system_records ++ newRows
        ∧ newRows.map (fun r => r.serialnumber)
            = (items.filter (fun it => (it.prop "serialnumber").truthy)).map
                (fun it => (it.prop "serialnumber").toStr)
        ∧ ∀ r ∈ newRows, r.is_current = true := by
  cases items with
  | nil => exact absurd rfl hne
  | cons first more =>
    obtain ⟨⟨newRows, p1, p1', p1''⟩, p2⟩ := processItems_spec env req.sourceOrDefault hq
      (Client.query env (Client.query env (connect db) Query.begin).1
        (Query.insertLog req.batch_id req.sourceOrDefault "processing"
          (first :: more).length 0 0)).1
      (first :: more) hvalid
    simp only [query_of_not_fails env _ _ (hq _), exec] at p1 p2
    refine ⟨{ batch_id := req.batch_id
              total_items := (first :: more).length
              processed_count := (first :: more).length
                - ((first :: more).filter (fun it => !(it.prop "serialnumber").truthy)).length
              error_count :=
                ((first :: more).filter (fun it => !(it.prop "serialnumber").truthy)).length
              status :=
                if ((first :: more).filter
                    (fun it => !(it.prop "serialnumber").truthy)).length = 0
                then "completed" else "completed_with_errors"
              errors :=
                if ((first :: more).filter
                    (fun it => !(it.prop "serialnumber").truthy)).length = 0
                then none
                else some (((first :: more).filter
                  (fun it => !(it.prop "serialnumber").truthy)).map
                    (fun it => { serialnumber := it.prop "serialnumber",
                                 error := "Missing serial number" })) },
      _, newRows, ?_, rfl, rfl, rfl, rfl, rfl, rfl, ?_, ?_, p1', p1''⟩
    · simp only [processInventoryData, hitems, query_of_not_fails env _ _ (hq _), exec, p2]
      by_cases hk : (List.filter (fun it => !(it.prop "serialnumber").truthy)
          (first :: more)).length = 0
      · simp [hk]
      · have : (List.filter (fun it => !(it.prop "serialnumber").truthy)
            (first :: more)).length > 0 := Nat.pos_of_ne_zero hk
        simp [hk, this]
    · simp only [processInventoryData, hitems, query_of_not_fails env _ _ (hq _), exec, p2]
      rfl
    · simp only [processInventoryData, hitems, query_of_not_fails env _ _ (hq _), exec, p2]
      simp only [Client.release]
      rw [p1]
      rfl

/-- Failure isolation, an example: the batch `[{serialnumber: "S1"}, {},
{serialnumber: "S3"}]` on an empty store gives `processed_count = 2`,
`error_count = 1`, the status "completed_with_errors" and two new current
rows. -/
theorem item_failure_isolation_witness :
    ∃ (details : Details) (newRows : List SystemRecord),
      (processInventoryData sampleEnv emptyDb sampleRequest).response
          = Response.success "Data processing completed" (JsVal.str "b1") details
        ∧ details.processed_count = 2
        ∧ details.error_count = 1
        ∧ details.status = "completed_with_errors"
        ∧ (processInventoryData sampleEnv emptyDb sampleRequest).client.db.tables.system_records
            = newRows
        ∧ newRows.map (fun r => r.serialnumber) = ["S1", "S3"]
        ∧ ∀ r ∈ newRows, r.is_current = true := by
  obtain ⟨details, errors, newRows, h1, _, h3, h4, h5, _, _, _, h9, h10, h11⟩ :=
    item_failure_isolation sampleEnv emptyDb sampleRequest sampleBatch rfl (by decide)
      (fun _ => rfl) (by decide)
  have e : (sampleBatch.filter (fun it => (it.prop "serialnumber").truthy)).foldl
      (fun rows it => supersedeRows (it.prop "serialnumber").toStr rows)
      emptyDb.tables.system_records = [] := by decide
  exact ⟨details, newRows, h1, h3.trans (by decide), h4.trans (by decide),
    h5.trans (by decide), h9.trans (by rw [e]; rfl), h10.trans (by decide), h11⟩

theorem markFailedRows_of_fresh (now : Nat) (message : String) (id : Nat) :
    ∀ rows : List ProcessingLog, (∀ r ∈ rows, r.id ≠ id) →
      markFailedRows now message id rows = rows
  | [], _ => rfl
  | r :: rest, h => by
    have ih := markFailedRows_of_fresh now message id rest
      (fun x hx => h x (List.mem_cons_of_mem _ hx))
    have hr : r.id ≠ id := h r (List.mem_cons_self _ _)
    unfold markFailedRows at ih ⊢
    simp only [List.map_cons, if_neg hr, ih]

theorem query_issued (env : Env) (c : Client) (q : Query) :
    ∃ ok, (c.query env q).1.issued = c.issued ++ [(q, ok)] := by
  unfold Client.query
  cases env.fails c.issued.length with
  | none => exact ⟨true, rfl⟩
  | some _ => exact ⟨false, rfl⟩

theorem query_extends (env : Env) (c : Client) (q : Query) :
    ∃ l, (c.query env q).1.issued = c.issued ++ l :=
  let ⟨ok, h⟩ := query_issued env c q
  ⟨[(q, ok)], h⟩

theorem markLogFailed_issued (env : Env) (c : Client) (message : String) (id : Nat) :
    ∃ l, (markLogFailed env c message id).issued = c.issued ++ l := by
  have step : ∀ (c' : Client) (q : Query), (∃ l, c'.issued = c.issued ++ l) →
      ∃ l, (c'.query env q).1.issued = c.issued ++ l := by
    rintro c' q ⟨l, hl⟩
    obtain ⟨l', hl'⟩ := query_extends env c' q
    exact ⟨l ++ l', by rw [hl', hl, List.append_assoc]⟩
  have h0 : ∃ l, c.issued = c.issued ++ l := ⟨[], by simp⟩
  simp only [markLogFailed]
  split
  · exact step _ _ (step _ _ h0)
  · split
    · exact step _ _ (step _ _ (step _ _ h0))
    · split
      · exact step _ _ (step _ _ (step _ _ (step _ _ h0)))
      · exact step _ _ (step _ _ (step _ _ h0))

/-- A statement of the secondary attempt, failing or not, leaves the tables as
they are when the log row it addresses does not exist. -/
theorem query_keeps_tables (env : Env) (c : Client) (q : Query) (T : Tables)
    (message : String) (id : Nat)
    (hq : q = Query.begin ∨ q = Query.commit ∨ q = Query.rollback
      ∨ q = Query.markFailed message id)
    (hid : ∀ r ∈ T.processing_logs, r.id ≠ id)
    (h : c.db.tables = T ∧ (c.db.snapshot = none ∨ c.db.snapshot = some T)) :
    (c.query env q).1.db.tables = T
      ∧ ((c.query env q).1.db.snapshot = none ∨ (c.query env q).1.db.snapshot = some T) := by
  obtain ⟨ht, hs⟩ := h
  unfold Client.query
  cases env.fails c.issued.length with
  | some _ => exact ⟨ht, hs⟩
  | none =>
    rcases hq with hq | hq | hq | hq <;> subst hq
    · rcases hs with hs | hs <;> simp [exec, hs, ht]
    · simp [exec, ht]
    · rcases hs with hs | hs <;> simp [exec, hs, ht]
    · refine ⟨?_, by simpa [exec] using hs⟩
      simp only [exec]
      rw [ht, markFailedRows_of_fresh _ _ _ _ hid]

theorem markLogFailed_tables (env : Env) (c : Client) (message : String) (id : Nat)
    (T : Tables) (hid : ∀ r ∈ T.processing_logs, r.id ≠ id)
    (h : c.db.tables = T ∧ (c.db.snapshot = none ∨ c.db.snapshot = some T)) :
    (markLogFailed env c message id).db.tables = T := by
  have step : ∀ (c' : Client) (q : Query),
      (q = Query.begin ∨ q = Query.commit ∨ q = Query.rollback
        ∨ q = Query.markFailed message id) →
      (c'.db.tables = T ∧ (c'.db.snapshot = none ∨ c'.db.snapshot = some T)) →
      ((c'.query env q).1.db.tables = T
        ∧ ((c'.query env q).1.db.snapshot = none ∨ (c'.query env q).1.db.snapshot = some T)) :=
    fun c' q hq h' => query_keeps_tables env c' q T message id hq hid h'
  have b := step c Query.begin (Or.inl rfl) h
  simp only [markLogFailed]
  split
  · exact (step _ Query.rollback (Or.inr (Or.inr (Or.inl rfl))) b).1
  · have u := step _ (Query.markFailed message id) (Or.inr (Or.inr (Or.inr rfl))) b
    split
    · exact (step _ Query.rollback (Or.inr (Or.inr (Or.inl rfl))) u).1
    · have k := step _ Query.commit (Or.inr (Or.inl rfl)) u
      split
      · exact (step _ Query.rollback (Or.inr (Or.inr (Or.inl rfl))) k).1
      · exact k.1

theorem query_of_error {env : Env} {c : Client} {q : Query} {message : String}
    (h : (c.query env q).2 = Except.error message) :
    (c.query env q).1 = { c with issued := c.issued ++ [(q, false)] } := by
  unfold Client.query at h ⊢
  cases hf : env.fails c.issued.length with
  | some _ => rfl
  | none => rw [hf] at h; cases h

theorem query_of_ok {env : Env} {c : Client} {q : Query} {r : Option Nat}
    (h : (c.query env q).2 = Except.ok r) :
    (c.query env q).1
        = { c with db := (exec (env.dbNow c.issued.length) c.db q).1,
                   issued := c.issued ++ [(q, true)] }
      ∧ r = (exec (env.dbNow c.issued.length) c.db q).2 := by
  unfold Client.query at h ⊢
  cases hf : env.fails c.issued.length with
  | some _ => rw [hf] at h; cases h
  | none =>
    rw [hf] at h
    exact ⟨rfl, (Except.ok.inj h).symm⟩

/-- A statement on the rows leaves the snapshot alone and is no ROLLBACK. -/
theorem query_row_statement (env : Env) (c : Client) (q : Query)
    (hq : (∃ s, q = Query.supersede s) ∨ (∃ r, q = Query.insertRecord r)
      ∨ ∃ s p e l i, q = Query.finalizeLog s p e l i) :
    (c.query env q).1.db.snapshot = c.db.snapshot
      ∧ ∃ l, (c.query env q).1.issued = c.issued ++ l ∧ ∀ e ∈ l, e.1 ≠ Query.rollback := by
  obtain ⟨ok, hi⟩ := query_issued env c q
  refine ⟨?_, [(q, ok)], hi, ?_⟩
  · unfold Client.query
    cases env.fails c.issued.length with
    | some _ => rfl
    | none =>
      rcases hq with ⟨s, h⟩ | ⟨r, h⟩ | ⟨s, p, e, l, i, h⟩ <;> subst h <;> rfl
  · intro e he
    rw [List.mem_singleton.mp he]
    rcases hq with ⟨s, h⟩ | ⟨r, h⟩ | ⟨s, p, e, l, i, h⟩ <;> subst h <;> simp

theorem startItems_cons_of_truthy (env : Env) (c : Client) (st : ItemsState) (i : Nat)
    (item : JsObject) (rest : List JsObject) (h : (item.prop "serialnumber").truthy = true) :
    (startItems env c st i (item :: rest)).1
      = (startItems env (c.query env (Query.supersede (item.prop "serialnumber").toStr)).1 st
          (i + 1) rest).1 := by
  simp [startItems, h]

theorem startItems_inv (env : Env) : ∀ (items : List JsObject) (c : Client) (st : ItemsState)
    (i : Nat),
    (startItems env c st i items).1.db.snapshot = c.db.snapshot
      ∧ ∃ l, (startItems env c st i items).1.issued = c.issued ++ l
          ∧ ∀ e ∈ l, e.1 ≠ Query.rollback
  | [], c, st, i => ⟨rfl, [], by simp [startItems], by simp⟩
  | item :: rest, c, st, i => by
    by_cases h : (item.prop "serialnumber").truthy = true
    · rw [startItems_cons_of_truthy env c st i item rest h]
      obtain ⟨q1, l1, q2, q3⟩ := query_row_statement env c
        (Query.supersede (item.prop "serialnumber").toStr) (Or.inl ⟨_, rfl⟩)
      obtain ⟨s1, l2, s2, s3⟩ := startItems_inv env rest
        (c.query env (Query.supersede (item.prop "serialnumber").toStr)).1 st (i + 1)
      refine ⟨s1.trans q1, l1 ++ l2, by rw [s2, q2, List.append_assoc], ?_⟩
      intro e he
      rcases List.mem_append.mp he with he | he
      · exact q3 e he
      · exact s3 e he
    · have h' : (item.prop "serialnumber").truthy = false := by simpa using h
      rw [startItems_cons_of_falsy env c st i item rest h']
      exact startItems_inv env rest c _ (i + 1)

theorem continueItems_inv (env : Env) (source : JsVal) : ∀ (pend : List Pending) (c : Client)
    (st : ItemsState),
    (continueItems env source c st pend).1.db.snapshot = c.db.snapshot
      ∧ ∃ l, (continueItems env source c st pend).1.issued = c.issued ++ l
          ∧ ∀ e ∈ l, e.1 ≠ Query.rollback
  | [], c, st => ⟨rfl, [], by simp [continueItems], by simp⟩
  | p :: rest, c, st => by
    simp only [continueItems]
    split
    · exact continueItems_inv env source rest c _
    · split
      · exact continueItems_inv env source rest c _
      · rename_i ts _
        obtain ⟨q1, l1, q2, q3⟩ := query_row_statement env c
          (Query.insertRecord (newRecord source p.item ts)) (Or.inr (Or.inl ⟨_, rfl⟩))
        obtain ⟨s1, l2, s2, s3⟩ := continueItems_inv env source rest
          (c.query env (Query.insertRecord (newRecord source p.item ts))).1 st
        refine ⟨s1.trans q1, l1 ++ l2, by rw [s2, q2, List.append_assoc], ?_⟩
        intro e he
        rcases List.mem_append.mp he with he | he
        · exact q3 e he
        · exact s3 e he

theorem processItems_inv (env : Env) (source : JsVal) (c : Client) (items : List JsObject) :
    (processItems env source c items).1.db.snapshot = c.db.snapshot
      ∧ ∃ l, (processItems env source c items).1.issued = c.issued ++ l
          ∧ ∀ e ∈ l, e.1 ≠ Query.rollback := by
  obtain ⟨s1, l1, s2, s3⟩ := startItems_inv env items c
    { errors := [], processedCount := 0, errorCount := 0 } 0
  obtain ⟨c1, l2, c2, c3⟩ := continueItems_inv env source
    (startItems env c { errors := [], processedCount := 0, errorCount := 0 } 0 items).2.2
    (startItems env c { errors := [], processedCount := 0, errorCount := 0 } 0 items).1
    (startItems env c { errors := [], processedCount := 0, errorCount := 0 } 0 items).2.1
  refine ⟨c1.trans s1, l1 ++ l2, ?_, ?_⟩
  · show (continueItems env source _ _ _).1.issued = _
    rw [c2, s2, List.append_assoc]
  · intro e he
    rcases List.mem_append.mp he with he | he
    · exact s3 e he
    · exact c3 e he

theorem query_not_rollback (env : Env) (c : Client) (q : Query) (hq : q ≠ Query.rollback)
    (hc : ∀ e ∈ c.issued, e.1 ≠ Query.rollback) :
    ∀ e ∈ (c.query env q).1.issued, e.1 ≠ Query.rollback := by
  obtain ⟨ok, h⟩ := query_issued env c q
  rw [h]
  intro e he
  rcases List.mem_append.mp he with he | he
  · exact hc e he
  · rw [List.mem_singleton.mp he]
    exact hq

theorem query_snapshot_of_error {env : Env} {c : Client} {q : Query} {message : String}
    (h : (c.query env q).2 = Except.error message) :
    (c.query env q).1.db = c.db := by
  rw [query_of_error h]

/-- The ways `processInventoryData` ends: in the `catch` block before a
transaction was opened, with the database untouched; in the `catch` block
inside the transaction, with the snapshot taken at BEGIN still in place and no
ROLLBACK sent yet; or with the success response. -/
theorem processInventoryData_cases (env : Env) (db : Db) (req : Request) (P : Outcome → Prop)
    (hs : db.snapshot = none)
    (hearly : ∀ c message, c.db = db → P (failWith env c none false message))
    (hlate : ∀ c logId message, c.db.snapshot = some db.tables →
      (∀ e ∈ c.issued, e.1 ≠ Query.rollback) →
      (∀ id, logId = some id → id = db.log_id_seq + 1) →
      P (failWith env c logId true message))
    (hok : ∀ c message batchId details,
      P { client := c, response := Response.success message batchId details }) :
    P (processInventoryData env db req) := by
  unfold processInventoryData
  split
  · exact hearly _ _ rfl
  · exact hearly _ _ rfl
  · rename_i first more _
    simp only
    have hb0 : ∀ e ∈ (connect db).issued, e.1 ≠ Query.rollback := by simp [connect]
    have hb1 := query_not_rollback env (connect db) Query.begin (by simp) hb0
    split
    · rename_i message hb
      exact hearly _ _ (query_snapshot_of_error hb)
    · rename_i r hb
      have hbs : ((connect db).query env Query.begin).1.db.snapshot = some db.tables := by
        rw [(query_of_ok hb).1]
        simp [exec, connect, hs]
      have hbq : ((connect db).query env Query.begin).1.db.log_id_seq = db.log_id_seq := by
        rw [(query_of_ok hb).1]
        rfl
      have hl1 := query_not_rollback env ((connect db).query env Query.begin).1
        (Query.insertLog req.batch_id req.sourceOrDefault "processing" (first :: more).length 0 0)
        (by simp) hb1
      split
      · rename_i message hl
        refine hlate _ none _ ?_ hl1 (by simp)
        rw [query_snapshot_of_error hl]
        exact hbs
      · rename_i hl
        have := (query_of_ok hl).2
        simp [exec] at this
      · rename_i processingLogId hl
        have hid : processingLogId = db.log_id_seq + 1 := by
          have := (query_of_ok hl).2
          simp only [exec, Option.some.injEq] at this
          rw [this, hbq]
        have hls : (((connect db).query env Query.begin).1.query env
            (Query.insertLog req.batch_id req.sourceOrDefault "processing"
              (first :: more).length 0 0)).1.db.snapshot = some db.tables := by
          rw [(query_of_ok hl).1]
          exact hbs
        obtain ⟨hps, lp, hpi, hpr⟩ := processItems_inv env req.sourceOrDefault
          (((connect db).query env Query.begin).1.query env
            (Query.insertLog req.batch_id req.sourceOrDefault "processing"
              (first :: more).length 0 0)).1 (first :: more)
        have hp1 : ∀ e ∈ (processItems env req.sourceOrDefault
            (((connect db).query env Query.begin).1.query env
              (Query.insertLog req.batch_id req.sourceOrDefault "processing"
                (first :: more).length 0 0)).1 (first :: more)).1.issued,
            e.1 ≠ Query.rollback := by
          rw [hpi]
          intro e he
          rcases List.mem_append.mp he with he | he
          · exact hl1 e he
          · exact hpr e he
        split
        · rename_i message hu
          refine hlate _ (some processingLogId) _ ?_
            (query_not_rollback env _ _ (by simp) hp1) (by simpa using hid)
          rw [query_snapshot_of_error hu, hps]
          exact hls
        · rename_i hu
          split
          · rename_i message hk
            refine hlate _ (some processingLogId) _ ?_
              (query_not_rollback env _ _ (by simp)
                (query_not_rollback env _ _ (by simp) hp1)) (by simpa using hid)
            rw [query_snapshot_of_error hk, (query_of_ok hu).1]
            exact hps.trans hls
          · exact hok _ _ _ _

theorem failWith_late (env : Env) (c : Client) (logId : Option Nat) (message : String)
    (T : Tables) (hsnap : c.db.snapshot = some T)
    (hno : ∀ e ∈ c.issued, e.1 ≠ Query.rollback)
    (hid : ∀ id, logId = some id → ∀ r ∈ T.processing_logs, r.id ≠ id)
    (hrb : firstRollback (failWith env c logId true message).client.issued
      ≠ some (Query.rollback, false)) :
    (failWith env c logId true message).client.db.tables = T := by
  have hfind : ∀ l ok, firstRollback (c.issued ++ [(Query.rollback, ok)] ++ l)
      = some (Query.rollback, ok) := by
    intro l ok
    unfold firstRollback
    rw [List.append_assoc, List.find?_append]
    have hnone : c.issued.find? (fun e => decide (e.1 = Query.rollback)) = none := by
      rw [List.find?_eq_none]
      intro e he
      simpa using hno e he
    rw [hnone]
    simp
  cases hq : (c.query env Query.rollback).2 with
  | error m =>
    exfalso
    apply hrb
    have h1 := query_of_error hq
    unfold failWith
    simp only [if_true, Client.release]
    cases logId with
    | none => simpa [h1] using hfind [] false
    | some id =>
      by_cases h0 : id = 0
      · simpa [h0, h1] using hfind [] false
      · obtain ⟨l, hl⟩ := markLogFailed_issued env (c.query env Query.rollback).1 message id
        rw [h1] at hl
        simp only [ne_eq, h0, not_false_eq_true, if_true, h1, hl]
        exact hfind l false
  | ok r =>
    have h1 := (query_of_ok hq).1
    have hdb : (c.query env Query.rollback).1.db.tables = T
        ∧ ((c.query env Query.rollback).1.db.snapshot = none
          ∨ (c.query env Query.rollback).1.db.snapshot = some T) := by
      rw [h1]
      simp [exec, hsnap]
    unfold failWith
    simp only [if_true, Client.release]
    cases logId with
    | none => exact hdb.1
    | some id =>
      by_cases h0 : id = 0
      · simpa [h0] using hdb.1
      · simp only [ne_eq, h0, not_false_eq_true, if_true]
        exact markLogFailed_tables env _ message id T (hid id rfl) hdb

/-- C10.  Starting with no open transaction and with the log ids below the
sequence, whenever `processInventoryData` answers with a failure (in
particular when the log-row insert, the final log-row update or the COMMIT
fails) and the ROLLBACK of the `catch` block does not fail, the two tables are
afterwards what they were before the call, whatever happens to the statements
of the items and of the secondary attempt to mark the log as failed. -/
theorem failed_batch_changes_nothing (env : Env) (db : Db) (req : Request)
    (hs : db.snapshot = none)
    (hid : ∀ r ∈ db.tables.processing_logs, r.id ≤ db.log_id_seq)
    (hfail : (processInventoryData env db req).response.isSuccess = false)
    (hrb : firstRollback (processInventoryData env db req).client.issued
      ≠ some (Query.rollback, false)) :
    (processInventoryData env db req).client.db.tables = db.tables := by
  revert hfail hrb
  apply processInventoryData_cases env db req
    (fun out => out.response.isSuccess = false →
      firstRollback out.client.issued ≠ some (Query.rollback, false) →
      out.client.db.tables = db.tables) hs
  · intro c message hc _ _
    simp [failWith, Client.release, hc]
  · intro c logId message hsnap hno hlog _ hrb
    refine failWith_late env c logId message db.tables hsnap hno ?_ hrb
    intro id hi r hr
    have := hid r hr
    have := hlog id hi
    omega
  · intro c message batchId details hfail
    simp [Response.isSuccess] at hfail

/-- C10 (witness): the final update of the log row (statement 4 of the call)
fails for a batch that re-ingests "S1"; the ROLLBACK succeeds and both tables
are as before, the earlier row of "S1" still current. -/
theorem failed_batch_changes_nothing_witness :
    (processInventoryData (failingAt 4) stockedDb singleRequest).client.db.tables
      = stockedDb.tables :=
  failed_batch_changes_nothing (failingAt 4) stockedDb singleRequest rfl (by decide)
    (by decide) (by decide)

/-! ## Re-ingestion and failing items -/

theorem processItems_single (env : Env) (source : JsVal) (c : Client) (item : JsObject)
    (h : (processItems env source c [item]).2.processedCount = 1) :
    ∃ ts, itemTimestamps env 0 item = Except.ok ts
      ∧ (processItems env source c [item]).1.db.tables.system_records
          = supersedeRows (item.prop "serialnumber").toStr c.db.tables.system_records
              ++ [newRecord source item ts] := by
  unfold processItems at h ⊢
  by_cases ht : (item.prop "serialnumber").truthy = true
  · cases hu : env.fails c.issued.length with
    | some m =>
      simp [startItems, continueItems, finishItems, ht, Client.query, hu, ItemsState.fail] at h
    | none =>
      cases hts : itemTimestamps env 0 item with
      | error m =>
        simp [startItems, continueItems, finishItems, ht, Client.query, hu, hts,
          ItemsState.fail] at h
      | ok ts =>
        cases hi : env.fails (c.issued.length + 1) with
        | some m =>
          simp [startItems, continueItems, finishItems, ht, Client.query, hu, hts, hi,
            ItemsState.fail] at h
        | none =>
          refine ⟨ts, rfl, ?_⟩
          simp [startItems, continueItems, ht, Client.query, hu, hts, hi, exec]
  · have ht' : (item.prop "serialnumber").truthy = false := by simpa using ht
    simp [startItems, continueItems, finishItems, ht', ItemsState.fail] at h

/-- What a success response tells: the request carried a non-empty array, the
reported counts are those of the item step run after BEGIN and the log insert,
the rows are as that step left them, and the transaction is closed. -/
theorem processInventoryData_success (env : Env) (db : Db) (req : Request)
    (message : String) (batchId : JsVal) (details : Details)
    (h : (processInventoryData env db req).response
      = Response.success message batchId details) :
    ∃ (items : List JsObject) (c : Client),
      req.items = ItemsArg.array items
        ∧ c.db.tables.system_records = db.tables.system_records
        ∧ details.processed_count
            = (processItems env req.sourceOrDefault c items).2.processedCount
        ∧ details.errors
            = (if (processItems env req.sourceOrDefault c items).2.errors.length > 0
                then some (processItems env req.sourceOrDefault c items).2.errors else none)
        ∧ (processInventoryData env db req).client.db.tables.system_records
            = (processItems env req.sourceOrDefault c items).1.db.tables.system_records
        ∧ (processInventoryData env db req).client.db.snapshot = none := by
  unfold processInventoryData at h ⊢
  split at h
  · simp [failWith] at h
  · simp [failWith] at h
  · rename_i first more hitems
    simp only [hitems]
    simp only at h
    split at h
    · simp [failWith] at h
    · rename_i r hb
      split at h
      · simp [failWith] at h
      · simp [failWith] at h
      · rename_i processingLogId hl
        split at h
        · simp [failWith] at h
        · rename_i r2 hu
          split at h
          · simp [failWith] at h
          · rename_i r3 hk
            simp only [hb, hl, hu, hk, Client.release]
            simp only [Response.success.injEq] at h
            refine ⟨first :: more,
              (Client.query env (Client.query env (connect db) Query.begin).1
                (Query.insertLog req.batch_id req.sourceOrDefault "processing"
                  (first :: more).length 0 0)).1, rfl, ?_, ?_, ?_, ?_, ?_⟩
            · rw [(query_of_ok hl).1, (query_of_ok hb).1]
              rfl
            · rw [← h.2.2]
            · rw [← h.2.2]
            · rw [(query_of_ok hk).1, (query_of_ok hu).1]
              rfl
            · rw [(query_of_ok hk).1]
              rfl

theorem filter_current_supersede_same (s : String) : ∀ rows : List SystemRecord,
    (supersedeRows s rows).filter (fun r => r.serialnumber = s ∧ r.is_current = true) = []
  | [] => rfl
  | r :: rest => by
    have ih := filter_current_supersede_same s rest
    unfold supersedeRows at ih ⊢
    rw [List.map_cons, List.filter_cons]
    by_cases h : r.serialnumber = s ∧ r.is_current = true
    · simp only [h, and_self, if_true]
      simpa using ih
    · rw [if_neg h]
      simp only [h, decide_False, Bool.false_eq_true, if_false]
      exact ih

theorem filter_current_supersede_other (s t : String) (h : t ≠ s) :
    ∀ rows : List SystemRecord,
      (supersedeRows s rows).filter (fun r => r.serialnumber = t ∧ r.is_current = true)
        = rows.filter (fun r => r.serialnumber = t ∧ r.is_current = true)
  | [] => rfl
  | r :: rest => by
    have ih := filter_current_supersede_other s t h rest
    unfold supersedeRows at ih ⊢
    rw [List.map_cons, List.filter_cons, List.filter_cons, ih]
    by_cases hr : r.serialnumber = s ∧ r.is_current = true
    · have ht : ¬ r.serialnumber = t := fun e => h (e.symm.trans hr.1)
      have hst : ¬ s = t := fun e => h e.symm
      simp [hr, ht, hst]
    · rw [if_neg hr]

theorem length_filter_serial_supersede (s t : String) : ∀ rows : List SystemRecord,
    ((supersedeRows s rows).filter (fun r => r.serialnumber = t)).length
      = (rows.filter (fun r => r.serialnumber = t)).length
  | [] => rfl
  | r :: rest => by
    have ih := length_filter_serial_supersede s t rest
    unfold supersedeRows at ih ⊢
    rw [List.map_cons, List.filter_cons, List.filter_cons]
    by_cases hr : r.serialnumber = s ∧ r.is_current = true
    · simp only [hr, and_self, if_true]
      by_cases ht : s = t
      · simpa [ht] using ih
      · simpa [ht] using ih
    · rw [if_neg hr]
      by_cases ht : r.serialnumber = t
      · simpa [ht] using ih
      · simpa [ht] using ih

/-- Re-ingestion when the item is ingested.  For a store with at most one
current row per serial number and a single-item batch that commits with
`processed_count = 1`, the table
afterwards is the former rows, those of the item's serial number no longer
current, followed by the new row, which carries the item's values; so exactly
one row of that serial number is current, the new one, the serial number has one
row more than before, and the invariant still holds. -/
theorem sequential_reingestion (env : Env) (db : Db) (req : Request) (item : JsObject)
    (message : String) (batchId : JsVal) (details : Details)
    (hitems : req.items = ItemsArg.array [item])
    (hinv : AtMostOneCurrent db.tables.system_records)
    (hresp : (processInventoryData env db req).response
      = Response.success message batchId details)
    (hcount : details.processed_count = 1) :
    ∃ ts, itemTimestamps env 0 item = Except.ok ts
      ∧ (processInventoryData env db req).client.db.tables.system_records
          = supersedeRows (item.prop "serialnumber").toStr db.tables.system_records
              ++ [newRecord req.sourceOrDefault item ts]
      ∧ (processInventoryData env db req).client.db.tables.system_records.filter
            (fun r => r.serialnumber = (item.prop "serialnumber").toStr ∧ r.is_current = true)
          = [newRecord req.sourceOrDefault item ts]
      ∧ ((processInventoryData env db req).client.db.tables.system_records.filter
            (fun r => r.serialnumber = (item.prop "serialnumber").toStr)).length
          = (db.tables.system_records.filter
            (fun r => r.serialnumber = (item.prop "serialnumber").toStr)).length + 1
      ∧ AtMostOneCurrent (processInventoryData env db req).client.db.tables.system_records
      ∧ (processInventoryData env db req).client.db.snapshot = none := by
  obtain ⟨items, c, h1, h2, h3, _, h5, h6⟩ :=
    processInventoryData_success env db req message batchId details hresp
  rw [hitems] at h1
  have hi : items = [item] := (ItemsArg.array.inj h1).symm
  subst hi
  obtain ⟨ts, hts, hrows⟩ := processItems_single env req.sourceOrDefault c item
    (h3.symm.trans hcount)
  rw [h2] at hrows
  have hnew : (newRecord req.sourceOrDefault item ts).serialnumber
      = (item.prop "serialnumber").toStr := rfl
  have hcur : (newRecord req.sourceOrDefault item ts).is_current = true := rfl
  refine ⟨ts, hts, h5.trans hrows, ?_, ?_, ?_, h6⟩
  · rw [h5, hrows, List.filter_append, filter_current_supersede_same]
    simp [hnew, hcur]
  · rw [h5, hrows, List.filter_append, List.length_append, length_filter_serial_supersede]
    simp [hnew]
  · intro t
    rw [h5, hrows, List.filter_append, List.length_append]
    by_cases ht : t = (item.prop "serialnumber").toStr
    · rw [ht, filter_current_supersede_same]
      simp [hnew, hcur]
    · rw [filter_current_supersede_other _ t ht]
      have := hinv t
      have hne : ¬ (newRecord req.sourceOrDefault item ts).serialnumber = t := by
        rw [hnew]; exact fun e => ht e.symm
      simpa [hne] using this

/-- Re-ingestion, an example: on an empty store batch A ingests `{serialnumber:
"S1", model: "X"}` and then batch B ingests `{serialnumber: "S1", model: "Y"}`;
afterwards "S1" has two rows, and its only current row carries the model "Y". -/
theorem sequential_reingestion_witness :
    ((processInventoryData sampleEnv
        (processInventoryData sampleEnv emptyDb firstIngest).client.db
        secondIngest).client.db.tables.system_records.filter
          (fun r => r.serialnumber = "S1")).length = 2
      ∧ ((processInventoryData sampleEnv
          (processInventoryData sampleEnv emptyDb firstIngest).client.db
          secondIngest).client.db.tables.system_records.filter
            (fun r => r.serialnumber = "S1" ∧ r.is_current = true)).map
              (fun r => r.columns.lookup "model")
          = [some (JsVal.str "Y")] := by
  obtain ⟨_, _, _, _, hlenA, hinvA, _⟩ := sequential_reingestion sampleEnv emptyDb firstIngest
    [("serialnumber", JsVal.str "S1"), ("model", JsVal.str "X")]
    "Data processing completed" (JsVal.str "A")
    { batch_id := JsVal.str "A", total_items := 1, processed_count := 1, error_count := 0,
      status := "completed", errors := none }
    rfl (fun s => by simp [emptyDb]) (by decide) rfl
  obtain ⟨ts, _, _, hcurB, hlenB, _, _⟩ := sequential_reingestion sampleEnv
    (processInventoryData sampleEnv emptyDb firstIngest).client.db secondIngest
    [("serialnumber", JsVal.str "S1"), ("model", JsVal.str "Y")]
    "Data processing completed" (JsVal.str "B")
    { batch_id := JsVal.str "B", total_items := 1, processed_count := 1, error_count := 0,
      status := "completed", errors := none }
    rfl hinvA (by decide) rfl
  have eA : (JsObject.prop [("serialnumber", JsVal.str "S1"), ("model", JsVal.str "X")]
      "serialnumber").toStr = "S1" := by decide
  have eB : (JsObject.prop [("serialnumber", JsVal.str "S1"), ("model", JsVal.str "Y")]
      "serialnumber").toStr = "S1" := by decide
  rw [eA] at hlenA
  rw [eB] at hlenB hcurB
  refine ⟨?_, ?_⟩
  · exact hlenB.trans (by rw [hlenA]; rfl)
  · rw [hcurB]
    rfl

/-- C15 (evaluation at the failing input).  The store holds a current row for
"S1".  The batch `[{serialnumber: "S1", created_at: "not-a-date"}]` commits
with the item in `errors`, and so does the batch `[{serialnumber: "S1"}]` whose
INSERT (statement 3) fails; in both runs the item's UPDATE has already run, so
afterwards the former row is no longer current and no row of "S1" is. -/
theorem failing_item_supersedes_current_row :
    (stockedDb.tables.system_records.filter
        (fun r => r.serialnumber = "S1" ∧ r.is_current = true)).length = 1
      ∧ (processInventoryData sampleEnv stockedDb badDateRequest).response
          = Response.success "Data processing completed" (JsVal.str "b2")
              { batch_id := JsVal.str "b2", total_items := 1, processed_count := 0,
                error_count := 1, status := "completed_with_errors",
                errors := some [{ serialnumber := JsVal.str "S1",
                                  error := "Invalid time value" }] }
      ∧ (processInventoryData sampleEnv stockedDb badDateRequest).client.db.snapshot = none
      ∧ (processInventoryData sampleEnv stockedDb badDateRequest).client.db.tables.system_records
          = [{ serialnumber := "S1", is_current := false, columns := [],
               created_at := 1, started_at := 1, last_updated_at := 1 }]
      ∧ (processInventoryData (failingAt 3) stockedDb singleRequest).response
          = Response.success "Data processing completed" (JsVal.str "b1")
              { batch_id := JsVal.str "b1", total_items := 1, processed_count := 0,
                error_count := 1, status := "completed_with_errors",
                errors := some [{ serialnumber := JsVal.str "S1",
                                  error := "connection lost" }] }
      ∧ (processInventoryData (failingAt 3) stockedDb singleRequest).client.db.tables.system_records
          = [{ serialnumber := "S1", is_current := false, columns := [],
               created_at := 1, started_at := 1, last_updated_at := 1 }] := by
  decide

/-! ## clearLogs, deleteLog and getLogs: properties -/

theorem logQuery_of_ok {env : Env} {c : LogClient} {q : LogQuery} {r : Nat}
    (h : (c.query env q).2 = Except.ok r) :
    (c.query env q).1
        = { c with db := (execLog (env.dbNow c.issued.length) c.db q).1,
                   issued := c.issued ++ [(q, true)] }
      ∧ r = (execLog (env.dbNow c.issued.length) c.db q).2 := by
  unfold LogClient.query at h ⊢
  cases hf : env.fails c.issued.length with
  | some _ => rw [hf] at h; cases h
  | none =>
    rw [hf] at h
    exact ⟨rfl, (Except.ok.inj h).symm⟩

theorem logQuery_of_not_fails (env : Env) (c : LogClient) (q : LogQuery)
    (h : env.fails c.issued.length = none) :
    c.query env q =
      ({ c with db := (execLog (env.dbNow c.issued.length) c.db q).1,
                issued := c.issued ++ [(q, true)] },
        Except.ok (execLog (env.dbNow c.issued.length) c.db q).2) := by
  unfold LogClient.query
  rw [h]

theorem filter_not_aged_of_none (now : Nat) : ∀ rows : List ProcessingLog,
    (rows.filter (aged now)).length = 0 → rows.filter (fun r => !aged now r) = rows
  | [], _ => rfl
  | r :: rest, h => by
    by_cases hr : aged now r = true
    · simp [List.filter, hr] at h
    · have hr' : aged now r = false := by simpa using hr
      have h' : (rest.filter (aged now)).length = 0 := by simpa [List.filter, hr'] using h
      simp [List.filter, hr', filter_not_aged_of_none now rest h']

theorem filter_aged_of_none (now : Nat) (rows : List ProcessingLog)
    (h : ∀ r ∈ rows, aged now r = false) : rows.filter (aged now) = [] := by
  rw [List.filter_eq_nil_iff]
  intro r hr
  simp [h r hr]

theorem logQuery_db_of_ok {env : Env} {c : LogClient} {q : LogQuery} {r : Nat}
    (h : (c.query env q).2 = Except.ok r) :
    (c.query env q).1.db = (execLog (env.dbNow c.issued.length) c.db q).1
      ∧ r = (execLog (env.dbNow c.issued.length) c.db q).2 := by
  obtain ⟨h1, h2⟩ := logQuery_of_ok h
  exact ⟨by rw [h1], h2⟩

/-- What a success response of `clearLogs` tells, when no transaction was open
at the start: every statement succeeded, with `NOW()` the time of the BEGIN. -/
theorem clearLogs_success (env : Env) (db : LogDb) (cleared : Nat) (message : String)
    (hs : db.snapshot = none)
    (h : (clearLogs env db).response = ClearResponse.success cleared message) :
    (clearLogs env db).client.db.tables.processing_logs
        = db.tables.processing_logs.filter (fun r => !aged (env.dbNow 0) r)
      ∧ (clearLogs env db).client.db.tables.processing_logs_archive
          = db.tables.processing_logs_archive
            ++ (db.tables.processing_logs.filter (aged (env.dbNow 0))).map
                (archiveRow (env.dbNow 0))
      ∧ cleared = (db.tables.processing_logs.filter (aged (env.dbNow 0))).length
      ∧ (clearLogs env db).client.db.snapshot = none := by
  unfold clearLogs at h ⊢
  simp only at h ⊢
  split at h
  · simp [clearFail] at h
  · rename_i r hb
    have dB : (LogClient.query env (connectLog db) LogQuery.begin).1.db
        = { tables := db.tables, snapshot := some db.tables, txTime := env.dbNow 0 } := by
      rw [(logQuery_db_of_ok hb).1]
      simp [execLog, LogDb.now, connectLog, hs]
    split at h
    · simp [clearFail] at h
      split at h <;> simp at h
    · rename_i count hc
      obtain ⟨dC, cC⟩ := logQuery_db_of_ok hc
      rw [dB] at dC cC
      simp only [execLog, LogDb.now, Option.isSome_some, if_true] at dC cC
      split at h
      · rename_i hzero
        split at h
        · simp [clearFail] at h
          split at h <;> simp at h
        · rename_i r3 hk
          obtain ⟨dK, _⟩ := logQuery_db_of_ok hk
          rw [dC] at dK
          simp only [execLog] at dK
          simp only [ClearResponse.success.injEq] at h
          simp only [hb, hc, hzero, if_true, hk, LogClient.release]
          rw [dK]
          have hcount : (db.tables.processing_logs.filter (aged (env.dbNow 0))).length = 0 := by
            rw [← cC]; exact hzero
          refine ⟨(filter_not_aged_of_none _ _ hcount).symm, ?_, ?_, rfl⟩
          · rw [List.length_eq_zero.mp hcount]
            simp
          · rw [hcount]; exact h.1.symm
      · rename_i hnz
        split at h
        · simp [clearFail] at h
          split at h <;> simp at h
        · rename_i moved ha
          obtain ⟨dA, cA⟩ := logQuery_db_of_ok ha
          rw [dC] at dA cA
          simp only [execLog, LogDb.now, Option.isSome_some, if_true] at dA cA
          split at h
          · simp [clearFail] at h
            split at h <;> simp at h
          · rename_i r4 hd
            obtain ⟨dD, _⟩ := logQuery_db_of_ok hd
            rw [dA] at dD
            simp only [execLog, LogDb.now, Option.isSome_some, if_true] at dD
            split at h
            · simp [clearFail] at h
              split at h <;> simp at h
            · rename_i r5 hk
              obtain ⟨dK, _⟩ := logQuery_db_of_ok hk
              rw [dD] at dK
              simp only [execLog] at dK
              simp only [ClearResponse.success.injEq] at h
              simp only [hb, hc, hnz, if_false, ha, hd, hk, LogClient.release]
              rw [dK]
              exact ⟨rfl, rfl, h.1.symm.trans cA, rfl⟩

theorem clearLogs_of_nothing_aged (env : Env) (db : LogDb) (hq : ∀ n, env.fails n = none)
    (hs : db.snapshot = none)
    (hnone : ∀ r ∈ db.tables.processing_logs, aged (env.dbNow 0) r = false) :
    (clearLogs env db).response = ClearResponse.success 0 "No logs to archive"
      ∧ (clearLogs env db).client.db.tables = db.tables := by
  have he := filter_aged_of_none (env.dbNow 0) db.tables.processing_logs hnone
  simp [clearLogs, logQuery_of_not_fails, hq, execLog, LogDb.now, connectLog, hs, he,
    LogClient.release]

/-- C12.  After a `clearLogs` run that answers with success (no transaction
being open at its start), with `now` the server time of its BEGIN: the live
table is its former rows without those older than the cutoff, in their order and
unchanged (a row without `completed_at` is never older); the archive is the
former archive followed by one row for each moved row, with `original_id` its
former `id`; `cleared` is the number of rows moved; and a second run in which no
statement fails and for which no remaining row is older than the cutoff reports
`cleared = 0` and leaves both tables as they are. -/
theorem clearLogs_moves_aged_once (env : Env) (db : LogDb) (cleared : Nat) (message : String)
    (hs : db.snapshot = none)
    (h : (clearLogs env db).response = ClearResponse.success cleared message) :
    (clearLogs env db).client.db.tables.processing_logs
        = db.tables.processing_logs.filter (fun r => !aged (env.dbNow 0) r)
      ∧ (clearLogs env db).client.db.tables.processing_logs_archive
          = db.tables.processing_logs_archive
            ++ (db.tables.processing_logs.filter (aged (env.dbNow 0))).map
                (archiveRow (env.dbNow 0))
      ∧ (∀ r ∈ db.tables.processing_logs, aged (env.dbNow 0) r = true →
          (archiveRow (env.dbNow 0) r).original_id = r.id)
      ∧ (∀ r ∈ db.tables.processing_logs, r.completed_at = none →
          r ∈ (clearLogs env db).client.db.tables.processing_logs)
      ∧ cleared = (db.tables.processing_logs.filter (aged (env.dbNow 0))).length
      ∧ ∀ next : Env, (∀ n, next.fails n = none) →
          (∀ r ∈ (clearLogs env db).client.db.tables.processing_logs,
            aged (next.dbNow 0) r = false) →
          (clearLogs next (clearLogs env db).client.db).response
              = ClearResponse.success 0 "No logs to archive"
            ∧ (clearLogs next (clearLogs env db).client.db).client.db.tables
              = (clearLogs env db).client.db.tables := by
  obtain ⟨h1, h2, h3, h4⟩ := clearLogs_success env db cleared message hs h
  refine ⟨h1, h2, fun _ _ _ => rfl, ?_, h3, ?_⟩
  · intro r hr hnull
    rw [h1]
    exact List.mem_filter.mpr ⟨hr, by simp [aged, hnull]⟩
  · intro next hq hnone
    exact clearLogs_of_nothing_aged next _ hq h4 hnone

/-- C12 (witness): of three logs, one completed long ago, one recently and one
still processing, the first is moved; the run reports `cleared = 1`. -/
theorem clearLogs_moves_aged_once_witness :
    ((clearLogs archiveEnv sampleLogDb).client.db.tables.processing_logs.map (fun r => r.id)
        = [2, 3])
      ∧ ((clearLogs archiveEnv sampleLogDb).client.db.tables.processing_logs_archive.map
          (fun r => r.original_id) = [1])
      ∧ (clearLogs archiveEnv (clearLogs archiveEnv sampleLogDb).client.db).response
          = ClearResponse.success 0 "No logs to archive"
      ∧ (clearLogs archiveEnv (clearLogs archiveEnv sampleLogDb).client.db).client.db.tables
          = (clearLogs archiveEnv sampleLogDb).client.db.tables := by
  obtain ⟨h1, h2, _, _, _, h6⟩ := clearLogs_moves_aged_once archiveEnv sampleLogDb 1
    "1 logs archived successfully" rfl (by decide)
  refine ⟨?_, ?_, h6 archiveEnv (fun _ => rfl) (by decide)⟩
  · rw [h1]; decide
  · rw [h2]; decide

/-- C13 (evaluation at the failing input).  When no statement fails and no log
row has the requested `batch_id`, `deleteLog` sends BEGIN and the SELECT,
answers 404 and releases the client once, without a COMMIT or ROLLBACK: the
transaction is still open when the client goes back to the pool. -/
theorem deleteLog_leaves_transaction_open (env : Env) (db : LogDb) (batchId : String)
    (hq : ∀ n, env.fails n = none)
    (hmissing : ∀ r ∈ db.tables.processing_logs, r.batch_id.toStr ≠ batchId) :
    (deleteLog env db batchId).response = DeleteResponse.notFound 404 "Log record not found"
      ∧ (deleteLog env db batchId).client.issued
          = [(LogQuery.begin, true), (LogQuery.selectByBatch batchId, true)]
      ∧ (deleteLog env db batchId).client.released = 1
      ∧ (deleteLog env db batchId).client.transactionOpen = true := by
  have he : db.tables.processing_logs.filter (fun r => r.batch_id.toStr = batchId) = [] := by
    rw [List.filter_eq_nil_iff]
    intro r hr
    simpa using hmissing r hr
  simp [deleteLog, logQuery_of_not_fails, hq, execLog, connectLog, he, LogClient.release,
    LogClient.transactionOpen]

/-- C13 (witness): a `batch_id` that no row of the sample store carries. -/
theorem deleteLog_leaves_transaction_open_witness :
    (deleteLog sampleEnv sampleLogDb "missing").response
        = DeleteResponse.notFound 404 "Log record not found"
      ∧ (deleteLog sampleEnv sampleLogDb "missing").client.issued
          = [(LogQuery.begin, true), (LogQuery.selectByBatch "missing", true)]
      ∧ (deleteLog sampleEnv sampleLogDb "missing").client.released = 1
      ∧ (deleteLog sampleEnv sampleLogDb "missing").client.transactionOpen = true :=
  deleteLog_leaves_transaction_open sampleEnv sampleLogDb "missing" (fun _ => rfl) (by decide)

theorem orderByStartedDesc_sorted (zones : TimeZones) (logs : List ProcessingLog) :
    (orderByStartedDesc zones logs).Pairwise
      (fun a b => zones.newYork b.started_at ≤ zones.newYork a.started_at) := by
  haveI : IsTotal ProcessingLog
      (fun a b => zones.newYork b.started_at ≤ zones.newYork a.started_at) :=
    ⟨fun a b => Nat.le_total (zones.newYork b.started_at) (zones.newYork a.started_at)⟩
  haveI : IsTrans ProcessingLog
      (fun a b => zones.newYork b.started_at ≤ zones.newYork a.started_at) :=
    ⟨fun _ _ _ hab hbc => Nat.le_trans hbc hab⟩
  exact List.sorted_insertionSort
    (fun a b : ProcessingLog => zones.newYork b.started_at ≤ zones.newYork a.started_at) logs

theorem orderByStartedDesc_length (zones : TimeZones) (logs : List ProcessingLog) :
    (orderByStartedDesc zones logs).length = logs.length :=
  List.length_insertionSort _ logs

theorem roundDouble_of_lt {n : Nat} (h : n < 2 ^ 53) : roundDouble n = some n := by
  unfold roundDouble
  rw [if_pos h]

/-- C14 (counterexample).  For `page = 10000000000000000000` and `limit = 1`
the offset `(page - 1) * limit` is the double 10^19, beyond the `bigint` of the
OFFSET clause: the page query fails and the handler answers 500 instead of
returning rows and `totalPages`. -/
theorem getLogs_rejects_large_page :
    getLogs sampleEnv plainZones twentyFiveLogs
        { page := some 10000000000000000000, limit := some 1, status := none }
      = LogsResponse.failure 500 "Failed to fetch logs"
          "value is out of range for type bigint" := by
  decide

/-- C14 (amended).  For `page ≥ 1` and `limit ≥ 1` with `page`, `limit` and
`(page - 1) * limit` below `2 ^ 53`, and matching logs whose order by start time
is kept by the conversion to New York wall-clock time, when neither statement
fails, `getLogs` binds the offset `(page - 1) * limit` and answers with the rows
at positions `offset` onwards, at most `limit` of them, of the matching logs in
descending order of `started_at`: `min(limit, total - offset)` rows (none when
the offset passes the end); `total` is the number of matching logs and
`totalPages` the least number of pages of `limit` rows that hold them,
`ceil(total / limit)`.  Without `page` and `limit` the handler uses 1 and 20. -/
theorem getLogs_pagination (env : Env) (zones : TimeZones) (logs : List ProcessingLog)
    (page limit : Nat) (status : Option String)
    (h0 : env.fails 0 = none) (h1 : env.fails 1 = none)
    (hpage : 1 ≤ page) (hlimit : 1 ≤ limit)
    (hpageSafe : page < 2 ^ 53) (hlimitSafe : limit < 2 ^ 53)
    (hoffsetSafe : (page - 1) * limit < 2 ^ 53)
    (hzones : ∀ a ∈ matchingLogs status logs, ∀ b ∈ matchingLogs status logs,
      a.started_at < b.started_at → zones.newYork a.started_at < zones.newYork b.started_at) :
    ∃ (ordered rows : List ProcessingLog) (totalPages : Nat),
      getLogs env zones logs { page := some page, limit := some limit, status := status }
          = LogsResponse.success (rows.map (presentLog zones))
              (matchingLogs status logs).length (some page) (some totalPages)
        ∧ offsetParam (some page) (some limit) = Except.ok ((page - 1) * limit)
        ∧ ordered.Perm (matchingLogs status logs)
        ∧ ordered.Pairwise (fun a b => b.started_at ≤ a.started_at)
        ∧ rows = (ordered.drop ((page - 1) * limit)).take limit
        ∧ rows.length = min limit ((matchingLogs status logs).length - (page - 1) * limit)
        ∧ (matchingLogs status logs).length ≤ totalPages * limit
        ∧ (∀ n, (matchingLogs status logs).length ≤ n * limit → totalPages ≤ n)
        ∧ getLogs env zones logs { page := none, limit := none, status := status }
            = getLogs env zones logs { page := some 1, limit := some 20, status := status } := by
  have hl0 : limit ≠ 0 := by omega
  have hp0 : page ≠ 0 := by omega
  have hp1 : page - 1 < 2 ^ 53 := Nat.lt_of_le_of_lt (Nat.sub_le _ _) hpageSafe
  have hoff : offsetParam (some page) (some limit) = Except.ok ((page - 1) * limit) := by
    simp only [offsetParam, if_neg hp0, roundDouble_of_lt hp1, roundDouble_of_lt hoffsetSafe]
    rw [if_pos (Nat.lt_of_lt_of_le hoffsetSafe (by decide))]
  have hlim : limitParam (some limit) = Except.ok limit := by
    simp only [limitParam]
    rw [if_pos (Nat.lt_of_lt_of_le hlimitSafe (by decide))]
  have hperm : (orderByStartedDesc zones (matchingLogs status logs)).Perm
      (matchingLogs status logs) := List.perm_insertionSort _ _
  refine ⟨orderByStartedDesc zones (matchingLogs status logs),
    ((orderByStartedDesc zones (matchingLogs status logs)).drop
      ((page - 1) * limit)).take limit,
    ((matchingLogs status logs).length + limit - 1) / limit, ?_, hoff, hperm, ?_, rfl, ?_, ?_, ?_,
    ?_⟩
  · simp only [getLogs, h0, h1, paramNumber, roundDouble_of_lt hpageSafe,
      roundDouble_of_lt hlimitSafe, hoff, hlim, totalPagesOf, if_neg hl0]
  · refine List.Pairwise.imp_of_mem ?_ (orderByStartedDesc_sorted zones _)
    intro a b ha hb hab
    by_contra hlt
    have := hzones a (hperm.subset ha) b (hperm.subset hb) (Nat.lt_of_not_le hlt)
    omega
  · rw [List.length_take, List.length_drop, orderByStartedDesc_length]
  · have hdiv := Nat.div_add_mod ((matchingLogs status logs).length + limit - 1) limit
    have hmod := Nat.mod_lt ((matchingLogs status logs).length + limit - 1) (by omega : limit > 0)
    have hmul : ((matchingLogs status logs).length + limit - 1) / limit * limit
        = limit * (((matchingLogs status logs).length + limit - 1) / limit) := Nat.mul_comm _ _
    omega
  · intro n hn
    apply Nat.lt_succ_iff.mp
    apply (Nat.div_lt_iff_lt_mul (by omega : 0 < limit)).mpr
    have := Nat.succ_mul n limit
    omega
  · have e1 : roundDouble 1 = some 1 := roundDouble_of_lt (by decide)
    have e20 : roundDouble 20 = some 20 := roundDouble_of_lt (by decide)
    simp only [getLogs, paramNumber, e1, e20, limitParam]
    rfl

/-- C14 (witness of the amended statement): with 25 stored logs, page 1 of 20
has 20 rows and `totalPages = 2`, and page 2 has the remaining 5. -/
theorem getLogs_pagination_witness :
    ∃ (first second : List ProcessingLog),
      getLogs sampleEnv plainZones twentyFiveLogs
          { page := some 1, limit := some 20, status := none }
          = LogsResponse.success (first.map (presentLog plainZones)) 25 (some 1) (some 2)
        ∧ first.length = 20
        ∧ getLogs sampleEnv plainZones twentyFiveLogs
            { page := some 2, limit := some 20, status := none }
          = LogsResponse.success (second.map (presentLog plainZones)) 25 (some 2) (some 2)
        ∧ second.length = 5 := by
  obtain ⟨_, first, tp1, a1, _, _, _, _, a3, a6, a7, _⟩ :=
    getLogs_pagination sampleEnv plainZones twentyFiveLogs 1 20 none rfl rfl (by decide)
      (by decide) (by decide) (by decide) (by decide) (fun _ _ _ _ h => h)
  obtain ⟨_, second, tp2, b1, _, _, _, _, b3, b6, b7, _⟩ :=
    getLogs_pagination sampleEnv plainZones twentyFiveLogs 2 20 none rfl rfl (by decide)
      (by decide) (by decide) (by decide) (by decide) (fun _ _ _ _ h => h)
  have hlen : (matchingLogs none twentyFiveLogs).length = 25 := by decide
  rw [hlen] at a1 a3 a6 a7 b1 b3 b6 b7
  have e1 : tp1 = 2 := by
    have := a7 2 (by decide)
    omega
  have e2 : tp2 = 2 := by
    have := b7 2 (by decide)
    omega
  subst e1 e2
  exact ⟨first, second, a1, a3.trans (by decide), b1, b3.trans (by decide)⟩

/-- Above `2 ^ 53` the offset is a rounded one: for `page = 2 ^ 53 + 2` and
`limit = 1` the handler binds `2 ^ 53` where `(page - 1) * limit` is
`2 ^ 53 + 1`. -/
theorem offsetParam_rounds_large_page :
    offsetParam (paramNumber (some 9007199254740994) 1) (paramNumber (some 1) 20)
      = Except.ok 9007199254740992 := by
  rfl

/-- The order of the rows follows the New York wall clock: of two logs started
at 05:45 and 06:15 UTC on 2024-11-03, shown as 01:45 and 01:15, the earlier one
comes first in the descending result. -/
theorem getLogs_orders_by_wall_clock :
    getLogs sampleEnv autumnZones autumnLogs { page := some 1, limit := some 20, status := none }
        = LogsResponse.success (autumnLogs.map (presentLog autumnZones)) 2 (some 1) (some 1)
      ∧ autumnLogs.map (fun r => (r.id, r.started_at))
        = [(1, 1730612700000), (2, 1730614500000)]
      ∧ (autumnLogs.map (presentLog autumnZones)).map (fun r => (r.id, r.started_at))
        = [(1, 1730598300000), (2, 1730596500000)] := by
  decide

/-! ## A null element, and re-ingestion with an unparsable date -/

/-- C7 (evaluation at the failing input).  For the body `{batch_id: 'b1', items:
[null, {serialnumber: 'S2'}]}` on an empty store, with no failing statement:
the `null` element rejects its callback, `Promise.all` rejects and the handler
answers 500 for the whole batch; the ROLLBACK is sent between the UPDATE and the
INSERT of "S2", so the row of "S2" is inserted outside the transaction and stays,
while the log row of the batch is rolled back. -/
theorem null_item_aborts_batch :
    (processInventoryRequest sampleEnv emptyDb nullItemRequest).response
        = Response.failure 500 "Failed to process inventory data"
            "Cannot read properties of null (reading 'serialnumber')"
      ∧ (processInventoryRequest sampleEnv emptyDb nullItemRequest).client.issued.map
          (fun e => (e.1.summary, e.2))
        = [("BEGIN", true), ("INSERT processing_logs", true),
           ("UPDATE system_records S2", true), ("ROLLBACK", true),
           ("INSERT system_records S2", true), ("BEGIN", true),
           ("UPDATE processing_logs failed", true), ("COMMIT", true)]
      ∧ (processInventoryRequest sampleEnv emptyDb
          nullItemRequest).client.db.tables.system_records.map
            (fun r => (r.serialnumber, r.is_current))
        = [("S2", true)]
      ∧ (processInventoryRequest sampleEnv emptyDb
          nullItemRequest).client.db.tables.processing_logs = []
      ∧ (processInventoryRequest sampleEnv emptyDb nullItemRequest).client.released = 1 := by
  decide

/-- C11 (evaluation at the failing input).  On an empty store batch A ingests
`{serialnumber: "S1", model: "X"}` and commits, leaving the invariant in place.
Batch B, `{serialnumber: "S1", model: "Y", created_at: "not-a-date"}`, commits
too, but its item fails on the timestamp after its UPDATE has run: "S1" then
has one row, not two, and no current row at all. -/
theorem reingestion_with_unparsable_date :
    (processInventoryData sampleEnv emptyDb firstIngest).response.isSuccess = true
      ∧ AtMostOneCurrent
          (processInventoryData sampleEnv emptyDb firstIngest).client.db.tables.system_records
      ∧ (processInventoryData sampleEnv
          (processInventoryData sampleEnv emptyDb firstIngest).client.db
          secondIngestBadDate).response
        = Response.success "Data processing completed" (JsVal.str "B")
            { batch_id := JsVal.str "B", total_items := 1, processed_count := 0,
              error_count := 1, status := "completed_with_errors",
              errors := some [{ serialnumber := JsVal.str "S1",
                                error := "Invalid time value" }] }
      ∧ (processInventoryData sampleEnv
          (processInventoryData sampleEnv emptyDb firstIngest).client.db
          secondIngestBadDate).client.db.snapshot = none
      ∧ ((processInventoryData sampleEnv
          (processInventoryData sampleEnv emptyDb firstIngest).client.db
          secondIngestBadDate).client.db.tables.system_records.filter
            (fun r => r.serialnumber = "S1")).length = 1
      ∧ (processInventoryData sampleEnv
          (processInventoryData sampleEnv emptyDb firstIngest).client.db
          secondIngestBadDate).client.db.tables.system_records.filter
            (fun r => r.serialnumber = "S1" ∧ r.is_current = true) = [] := by
  refine ⟨by decide, ?_, by decide, by decide, by decide, by decide⟩
  obtain ⟨_, _, _, _, _, hinv, _⟩ := sequential_reingestion sampleEnv emptyDb firstIngest
    [("serialnumber", JsVal.str "S1"), ("model", JsVal.str "X")]
    "Data processing completed" (JsVal.str "A")
    { batch_id := JsVal.str "A", total_items := 1, processed_count := 1, error_count := 0,
      status := "completed", errors := none }
    rfl (fun s => by simp [emptyDb]) (by decide) rfl
  exact hinv

end LabelPrinter
